import Mathlib

/-!
Shallow embedding of the gaze-data pipeline in
`src/js/gaze-data-manager.js` (class `GazeDataManager`).

JavaScript numbers are embedded as rationals (`Rat`); millisecond
timestamps and line indices as integers; `undefined` and `null` as
`Option.none`.  Two embeddings are given:

* the online per-sample pipeline (`processGaze` with its velocity
  computation and pending-sweep resolution, `detectRealtimeReturnSweep`
  via `detectCore`, `_fireEffect` via `fireEffect`, `resetTriggers`,
  `reset`, `clearGazeData`), over samples with numeric raw coordinates
  (NaN raw inputs are outside this embedding: every comparison on NaN is
  false in JS, so NaN samples can never satisfy a fire condition);
* the batch pass `preprocessData` (interpolation, Gaussian smoothing,
  velocity), over samples whose raw coordinates may be missing
  (`Option Rat`, `none` embedding NaN / non-numeric values).

Fields of the JS class that feed none of the verified operations are
omitted: the RGT fields (`currentLineMinX`, `globalMaxX`,
`isCollectingLineStart`), the debug/CSV-only per-sample strings
(`rsState`, `rsTriggerType`, `type`), the paragraph/word context copies
(`pIdx`, `wIdx`), `replayData`, `lineMetadata`, `wpmData`, the console
counters, and the DOM/Firebase side effects of `_fireEffect` and of the
deferred `_calcWPMForLine` (which needs `window.Game`).
-/

inductive TriggerKind where
  | immediate
  | delayed
deriving DecidableEq, Repr

/-- One entry of `this.pangLog` (pushed by `_fireEffect`):
`{ t: d0.t, line: targetLine, type, vx }`. -/
structure PangEvent where
  t : Int
  line : Int
  kind : TriggerKind
  vx : Rat
deriving DecidableEq, Repr

/-- One entry of `this.data` on the online path.  `line` is
`this.context.lineIndex` at ingestion time (`none` = undefined/null);
`gx`, `vx`, `vy` are populated lazily (`none` = never assigned). -/
structure ASample where
  t : Int
  x : Rat
  y : Rat
  line : Option Int
  gx : Option Rat := none
  vx : Option Rat := none
  vy : Option Rat := none
  didFire : Bool := false
deriving DecidableEq, Repr

/-- The mutable state of `GazeDataManager` (verified fields only).
`dataRev` is `this.data` with the MOST RECENT sample FIRST:
JS `push` is `cons`, JS `splice(0, k)` is `take (length - k)`,
`this.data[this.data.length - 1 - i]` is position `i`. -/
structure GazeState where
  dataRev : List ASample := []
  firstTimestamp : Option Int := none
  contextLine : Option Int := none
  lastTriggerTime : Int := 0
  lastPosPeakTime : Int := 0
  firstContentTime : Option Int := none
  maxLineIndexReached : Int := -1
  pangLog : List PangEvent := []
  wpm : Int := 0
  validWordSum : Int := 0
  validTimeSum : Int := 0
  lastRSTime : Int := 0
  lastRSLine : Int := -1
  lastUploadedIndex : Nat := 0
  searchStartIndex : Nat := 0
  lastPreprocessIndex : Nat := 0
  pendingReturnSweep : Option (Int × Rat) := none
  pangCountInPara : Int := 0
deriving DecidableEq, Repr

/-- The constructor state of `GazeDataManager`. -/
def initState : GazeState := {}

/-- `this.MAX_BUFFER_SIZE = 9000`. -/
def MAX_BUFFER_SIZE : Nat := 9000

/-- `Math.floor(this.MAX_BUFFER_SIZE * 0.1)`; the IEEE product
`9000 * 0.1` rounds to exactly `900`, so the floor is `900`. -/
def trimCount : Nat := 900

/-- JS truthiness of an optional number: `null`/`undefined` and `0` are
falsy, every other (integer) value truthy. -/
def jsTruthyOptInt : Option Int → Bool
  | none => false
  | some v => v != 0

/-- JS `g || x` for an optional number `g`: falls back to `x` when `g`
is `undefined`/`null` or `0`. -/
def jsOrQ : Option Rat → Rat → Rat
  | none, x => x
  | some g, x => if g = 0 then x else g

/-- `repairVX` in `detectRealtimeReturnSweep`: `null`/`undefined`/NaN
velocities count as `0`. -/
def repairVX : Option Rat → Rat
  | none => 0
  | some v => v

/-- The content-start gate `!this.firstContentTime || now < this.firstContentTime`
(negated: this returns `true` when the gate is PASSED). -/
def firstContentGate : Option Int → Int → Bool
  | none, _ => false
  | some f, now => decide (f ≠ 0 ∧ f ≤ now)

/-- `_fireEffect(type, vx)`: marks the newest sample as fired, updates
the cooldown anchor and the WPM chain fields, and appends to `pangLog`.
The visual effect, the RGT updates and the `setTimeout`-deferred
`_calcWPMForLine` call (all external side effects) are omitted.
Also returns the event delivered to collaborators. -/
def fireEffect (kind : TriggerKind) (v : Rat) (s : GazeState) :
    GazeState × Option PangEvent :=
  match s.dataRev with
  | [] => (s, none)
  | d0 :: rest =>
    let targetLine : Int :=
      match d0.line with
      | some l => if 0 < l then l - 1 else 0
      | none => 0
    let e : PangEvent := { t := d0.t, line := targetLine, kind := kind, vx := v }
    ({ s with dataRev := { d0 with didFire := true } :: rest,
              lastTriggerTime := d0.t,
              pangLog := s.pangLog ++ [e],
              lastRSTime := d0.t,
              lastRSLine := targetLine,
              pangCountInPara := s.pangCountInPara + 1 },
     some e)

/-- The realtime 3-tap smoothing `d0.x*0.5 + d1.x*0.3 + d2.x*0.2`
written to `d0.gx` by `detectRealtimeReturnSweep`. -/
def smoothXOf (d0 d1 d2 : ASample) : Rat :=
  d0.x * 0.5 + d1.x * 0.3 + d2.x * 0.2

/-- STEP A of `detectRealtimeReturnSweep`: geometric 3-point peak
(`sx1 >= sx2 && sx1 > sx0`) or velocity zero-crossing-down
(`v1 >= 0 && v0 < 0`), with `sxi = di.gx || di.x` and `d0.gx` just set
to the realtime smooth. -/
def posPeakCond (d0 d1 d2 : ASample) : Bool :=
  decide (jsOrQ d1.gx d1.x ≥ jsOrQ d2.gx d2.x ∧
          jsOrQ d1.gx d1.x > jsOrQ (some (smoothXOf d0 d1 d2)) d0.x) ||
  decide (repairVX d1.vx ≥ 0 ∧ repairVX d0.vx < 0)

/-- STEP B: velocity V-shape `v2 > v1 && v1 < v0` with depth
`v1 < -0.4`. -/
def valleyDeepCond (d0 d1 d2 : ASample) : Bool :=
  decide ((repairVX d2.vx > repairVX d1.vx ∧
           repairVX d1.vx < repairVX d0.vx) ∧ repairVX d1.vx < -0.4)

/-- The 500 ms refractory gate
`this.lastTriggerTime && (now - this.lastTriggerTime < 500)`
(`true` = blocked). -/
def cooldownBlocked (s : GazeState) (now : Int) : Bool :=
  jsTruthyOptInt (some s.lastTriggerTime) &&
  decide (now - s.lastTriggerTime < 500)

/-- `this.lastPosPeakTime` right after STEP A has run. -/
def peakTimeAfter (d0 d1 d2 : ASample) (s : GazeState) : Int :=
  if posPeakCond d0 d1 d2 then d1.t else s.lastPosPeakTime

/-- The cascade window `Math.abs(d1.t - this.lastPosPeakTime) < 600`,
read after the STEP A update. -/
def timingCond (d0 d1 d2 : ASample) (s : GazeState) : Bool :=
  decide (|d1.t - peakTimeAfter d0 d1 d2 s| < 600)

/-- Body of `detectRealtimeReturnSweep` for `this.data.length ≥ 5`,
with `d0`, `d1`, `d2` the three newest samples.  The source lines
`if (d1.gx === null) d1.gx = d1.x` (and for `d2`, and
`if (d0.vx === null) ...`) are dead code — `gx`/`vx` are only ever
`undefined` or a number in this codebase, never `null`, and
`undefined === null` is false — so they are not modelled.  Note that
the `d0.gx` write and the STEP A peak update happen before the gates,
so they survive every rejected call. -/
def detectCore (d0 d1 d2 : ASample) (s : GazeState) :
    GazeState × Option PangEvent :=
  let s1 : GazeState :=
    { s with dataRev := { d0 with gx := some (smoothXOf d0 d1 d2) } :: s.dataRev.tail,
             lastPosPeakTime := peakTimeAfter d0 d1 d2 s }
  if !(firstContentGate s.firstContentTime d0.t) then (s1, none)
  else if cooldownBlocked s d0.t then (s1, none)
  else if valleyDeepCond d0 d1 d2 then
    if timingCond d0 d1 d2 s then
      match d0.line with
      | some l =>
        if l = 0 then (s1, none)
        else if decide (l ≤ s.maxLineIndexReached) then (s1, none)
        else
          let fired := fireEffect TriggerKind.immediate (repairVX d1.vx) s1
          ({ fired.1 with lastPosPeakTime := 0, maxLineIndexReached := l },
           fired.2)
      | none => (s1, none)
    else (s1, none)
  else (s1, none)

/-- `detectRealtimeReturnSweep()`: returns unchanged for
`this.data.length < 5`, otherwise runs the cascade on the three newest
samples. -/
def detectStep (s : GazeState) : GazeState × Option PangEvent :=
  match s.dataRev with
  | d0 :: d1 :: d2 :: _ :: _ :: _ => detectCore d0 d1 d2 s
  | _ => (s, none)

/-- The pending-sweep resolution block of `processGaze`.  The flag
`isContextRestored` is constantly `true` in the source
(`this.prevLineIndex` is never assigned anywhere, so it is always
`undefined`), hence it is not a condition here. -/
def pendingResolve (t : Int) (entryLine : Option Int) (s : GazeState) :
    GazeState × Option PangEvent :=
  match s.pendingReturnSweep, entryLine with
  | some p, some _ =>
    if t - p.1 < 1000 then
      let fired := fireEffect TriggerKind.delayed p.2 s
      ({ fired.1 with pendingReturnSweep := none }, fired.2)
    else ({ s with pendingReturnSweep := none }, none)
  | _, _ => (s, none)

/-- `this.firstTimestamp` after a frame with host clock `ts`: initialized
on the first frame and reset when the clock went backwards. -/
def ftOf (s : GazeState) (ts : Int) : Int :=
  match s.firstTimestamp with
  | none => ts
  | some f => if ts < f then ts else f

/-- The relative timestamp `t = Math.floor(gazeInfo.timestamp - this.firstTimestamp)`
(host clocks are integer milliseconds, so the floor is the identity). -/
def tOf (s : GazeState) (ts : Int) : Int := ts - ftOf s ts

/-- The per-sample VELOCITY CALC block of `processGaze`: when at least
two samples are buffered, write the raw finite-difference velocity of
the newest sample (`(curr.x - prev.x) / dt`, with zero velocity when
`dt <= 0`). -/
def ingestVel : List ASample → List ASample
  | c :: p :: rest =>
    (if 0 < c.t - p.t then
      { c with vx := some ((c.x - p.x) / ((c.t - p.t : Int) : Rat)),
               vy := some ((c.y - p.y) / ((c.t - p.t : Int) : Rat)) }
     else { c with vx := some 0, vy := some 0 }) :: p :: rest
  | l => l

/-- The entry pushed by `processGaze`: relative timestamp, raw
position, and the persisted context stamped on (`line: this.context.lineIndex`). -/
def mkEntry (ts : Int) (x y : Rat) (s : GazeState) : ASample :=
  { t := tOf s ts, x := x, y := y, line := s.contextLine }

/-- The ingestion part of `processGaze`: push the annotated entry, trim
the rolling buffer (shifting the three cursors; `Nat` subtraction is
exactly the source's `Math.max(0, cursor - trimCount)`), capture
`firstContentTime`, and compute the raw finite-difference velocity of
the newest sample. -/
def ingestCore (ts : Int) (x y : Rat) (s : GazeState) : GazeState :=
  let t := tOf s ts
  let data1 := mkEntry ts x y s :: s.dataRev
  let doTrim : Bool := decide (MAX_BUFFER_SIZE < data1.length)
  let data2 := if doTrim then data1.take (data1.length - trimCount) else data1
  let fct : Option Int :=
    match s.firstContentTime with
    | some f => some f
    | none =>
      match s.contextLine with
      | some l => if 0 ≤ l then some t else none
      | none => none
  { s with dataRev := ingestVel data2,
           firstTimestamp := some (ftOf s ts),
           firstContentTime := fct,
           lastUploadedIndex :=
             if doTrim then s.lastUploadedIndex - trimCount
             else s.lastUploadedIndex,
           lastPreprocessIndex :=
             if doTrim then s.lastPreprocessIndex - trimCount
             else s.lastPreprocessIndex,
           searchStartIndex :=
             if doTrim then s.searchStartIndex - trimCount
             else s.searchStartIndex }

/-- `processGaze(gazeInfo)` for a frame with host clock `ts` and raw
position `(x, y)`: ingest, resolve a pending sweep, then run the
realtime detector.  Also returns the line-advance events delivered to
collaborators during this frame, in order. -/
def processGaze (ts : Int) (x y : Rat) (s : GazeState) :
    GazeState × List PangEvent :=
  let s1 := ingestCore ts x y s
  match s1.dataRev with
  | entry :: _ =>
    let pr := pendingResolve entry.t entry.line s1
    let det := detectStep pr.1
    (det.1, pr.2.toList ++ det.2.toList)
  | [] => (s1, [])

/-- `resetTriggers()` (new paragraph / content unit).  The cleared
log-like fields that are not modelled (`wpmData`, `lineMetadata`) and
the RGT/`setTimeout` lines are omitted; note that `wpm`,
`validWordSum`, `validTimeSum` are deliberately NOT touched. -/
def resetTriggers (s : GazeState) : GazeState :=
  { s with firstContentTime := none,
           lastTriggerTime := 0,
           lastPosPeakTime := 0,
           pendingReturnSweep := none,
           maxLineIndexReached := -1,
           pangLog := [],
           lastRSTime := 0,
           lastRSLine := -1,
           pangCountInPara := 0,
           searchStartIndex := s.dataRev.length }

/-- `reset()`: every modelled field back to its constructor value. -/
def reset (_ : GazeState) : GazeState :=
  { dataRev := [], firstTimestamp := none, contextLine := none,
    lastTriggerTime := 0, lastPosPeakTime := 0, firstContentTime := none,
    lastUploadedIndex := 0, pangLog := [], wpm := 0, validWordSum := 0,
    validTimeSum := 0, lastRSTime := 0, lastRSLine := -1,
    lastPreprocessIndex := 0, searchStartIndex := 0,
    maxLineIndexReached := -1, pangCountInPara := 0,
    pendingReturnSweep := none }

/-- `clearGazeData()`: frees the buffer after replay; `firstTimestamp`
is intentionally NOT reset (source comment), and neither is
`searchStartIndex`. -/
def clearGazeData (s : GazeState) : GazeState :=
  { s with dataRev := [], lastPreprocessIndex := 0, lastUploadedIndex := 0 }

/-- The operations a session may interleave on the online path.
`setContext { lineIndex: l }` updates the persisted context in place. -/
inductive SessionOp where
  | ingest (ts : Int) (x y : Rat)
  | setContext (l : Option Int)
  | resetTriggers
  | reset
  | clearGazeData
deriving DecidableEq, Repr

/-- One session step; also returns the events fired during that step. -/
def applyAction (s : GazeState) : SessionOp → GazeState × List PangEvent
  | SessionOp.ingest ts x y => processGaze ts x y s
  | SessionOp.setContext l => ({ s with contextLine := l }, [])
  | SessionOp.resetTriggers => (resetTriggers s, [])
  | SessionOp.reset => (reset s, [])
  | SessionOp.clearGazeData => (clearGazeData s, [])

/-- Run a list of session operations. -/
def execState : GazeState → List SessionOp → GazeState
  | s, [] => s
  | s, a :: tr => execState (applyAction s a).1 tr

/-- All line-advance events fired while running a list of session
operations, in order. -/
def execOut : GazeState → List SessionOp → List PangEvent
  | _, [] => []
  | s, a :: tr => (applyAction s a).2 ++ execOut (applyAction s a).1 tr

/-! ### Detector invariants

`DetInv` collects the state facts that the detector maintains across a
whole session: the pending sweep is never populated (the only writes to
`pendingReturnSweep` in the source are `null`), the per-unit event log
`pangLog` is strictly increasing in both completed line and time (with
gaps of at least 500 ms), every logged line lies below the monotonic
guard, the cooldown anchor is the time of the newest logged event, the
content-start time is never negative, and the buffer never exceeds its
capacity. -/

def DetInv (s : GazeState) : Prop :=
  s.pendingReturnSweep = none ∧
  s.pangLog.Pairwise (fun a b => a.line < b.line ∧ a.t + 500 ≤ b.t) ∧
  (∀ e ∈ s.pangLog, e.line < s.maxLineIndexReached ∧ e.t ≤ s.lastTriggerTime) ∧
  (s.pangLog ≠ [] → s.lastTriggerTime ≠ 0) ∧
  (∀ f, s.firstContentTime = some f → 0 ≤ f) ∧
  -1 ≤ s.maxLineIndexReached ∧
  s.dataRev.length ≤ MAX_BUFFER_SIZE

lemma initState_detInv : DetInv initState := by
  refine ⟨rfl, ?_, ?_, ?_, ?_, ?_, ?_⟩ <;> simp [initState, MAX_BUFFER_SIZE]

lemma tOf_nonneg (s : GazeState) (ts : Int) : 0 ≤ tOf s ts := by
  rcases h : s.firstTimestamp with _ | f <;> simp [tOf, ftOf, h]
  split <;> omega

lemma pendingResolve_none (t : Int) (l : Option Int) (s : GazeState)
    (h : s.pendingReturnSweep = none) : pendingResolve t l s = (s, none) := by
  cases l <;> simp [pendingResolve, h]

/-- Case analysis of one `detectRealtimeReturnSweep` call with at least
five samples buffered: the Frame fields are untouched, and either no
event fires (log, guard and cooldown unchanged), or all gates passed
and the state records the fired event. -/
lemma detectCore_proj (d0 d1 d2 : ASample) (s : GazeState) :
    (detectCore d0 d1 d2 s).1.pendingReturnSweep = s.pendingReturnSweep ∧
    (detectCore d0 d1 d2 s).1.firstContentTime = s.firstContentTime ∧
    (detectCore d0 d1 d2 s).1.contextLine = s.contextLine ∧
    (detectCore d0 d1 d2 s).1.dataRev.length = s.dataRev.tail.length + 1 ∧
    (detectCore d0 d1 d2 s).1.lastUploadedIndex = s.lastUploadedIndex ∧
    (detectCore d0 d1 d2 s).1.lastPreprocessIndex = s.lastPreprocessIndex ∧
    (detectCore d0 d1 d2 s).1.searchStartIndex = s.searchStartIndex ∧
    ((((detectCore d0 d1 d2 s).2 = none ∧
       (detectCore d0 d1 d2 s).1.pangLog = s.pangLog ∧
       (detectCore d0 d1 d2 s).1.maxLineIndexReached = s.maxLineIndexReached ∧
       (detectCore d0 d1 d2 s).1.lastTriggerTime = s.lastTriggerTime)) ∨
     (∃ l f, d0.line = some l ∧ l ≠ 0 ∧ s.maxLineIndexReached < l ∧
       s.firstContentTime = some f ∧ f ≠ 0 ∧ f ≤ d0.t ∧
       (s.lastTriggerTime = 0 ∨ s.lastTriggerTime + 500 ≤ d0.t) ∧
       (detectCore d0 d1 d2 s).2 =
         some { t := d0.t, line := if 0 < l then l - 1 else 0,
                kind := TriggerKind.immediate, vx := repairVX d1.vx } ∧
       (detectCore d0 d1 d2 s).1.pangLog =
         s.pangLog ++ [{ t := d0.t, line := if 0 < l then l - 1 else 0,
                         kind := TriggerKind.immediate, vx := repairVX d1.vx }] ∧
       (detectCore d0 d1 d2 s).1.maxLineIndexReached = l ∧
       (detectCore d0 d1 d2 s).1.lastTriggerTime = d0.t)) := by
  rcases hf : s.firstContentTime with _ | f
  · simp [detectCore, firstContentGate, hf]
  · by_cases hg : firstContentGate (some f) d0.t
    · by_cases hc : cooldownBlocked s d0.t
      · simp [detectCore, hf, hg, hc]
      · by_cases hv : valleyDeepCond d0 d1 d2
        · by_cases ht : timingCond d0 d1 d2 s
          · rcases hl : d0.line with _ | l
            · simp [detectCore, hf, hg, hc, hv, ht, hl]
            · by_cases hl0 : l = 0
              · simp [detectCore, hf, hg, hc, hv, ht, hl, hl0]
              · by_cases hlm : l ≤ s.maxLineIndexReached
                · simp [detectCore, hf, hg, hc, hv, ht, hl, hl0, hlm]
                · have hgate : f ≠ 0 ∧ f ≤ d0.t := by
                    simpa [firstContentGate] using hg
                  have hcool : s.lastTriggerTime = 0 ∨
                      s.lastTriggerTime + 500 ≤ d0.t := by
                    simp [cooldownBlocked, jsTruthyOptInt] at hc
                    omega
                  simp [detectCore, fireEffect, hf, hg, hc, hv, ht, hl, hl0, hlm]
                  exact ⟨lt_of_not_le hlm, hgate.1, hgate.2, hcool⟩
          · simp [detectCore, hf, hg, hc, hv, ht]
        · simp [detectCore, hf, hg, hc, hv]
    · simp [detectCore, hf, hg]

lemma detectStep_spec (s : GazeState) :
    detectStep s = (s, none) ∨
    ∃ d0 d1 d2 d3 d4 rest, s.dataRev = d0 :: d1 :: d2 :: d3 :: d4 :: rest ∧
      detectStep s = detectCore d0 d1 d2 s := by
  rcases hs : s.dataRev with _ | ⟨d0, _ | ⟨d1, _ | ⟨d2, _ | ⟨d3, _ | ⟨d4, rest⟩⟩⟩⟩⟩
  · exact Or.inl (by simp [detectStep, hs])
  · exact Or.inl (by simp [detectStep, hs])
  · exact Or.inl (by simp [detectStep, hs])
  · exact Or.inl (by simp [detectStep, hs])
  · exact Or.inl (by simp [detectStep, hs])
  · exact Or.inr ⟨d0, d1, d2, d3, d4, rest, rfl, by simp [detectStep, hs]⟩

lemma ingestCore_proj (ts : Int) (x y : Rat) (s : GazeState) :
    (ingestCore ts x y s).pendingReturnSweep = s.pendingReturnSweep ∧
    (ingestCore ts x y s).pangLog = s.pangLog ∧
    (ingestCore ts x y s).maxLineIndexReached = s.maxLineIndexReached ∧
    (ingestCore ts x y s).lastTriggerTime = s.lastTriggerTime ∧
    (ingestCore ts x y s).contextLine = s.contextLine ∧
    (∀ f, (ingestCore ts x y s).firstContentTime = some f →
      s.firstContentTime = some f ∨ f = tOf s ts) := by
  refine ⟨by simp [ingestCore], by simp [ingestCore], by simp [ingestCore],
          by simp [ingestCore], by simp [ingestCore], ?_⟩
  intro f hf
  simp only [ingestCore] at hf
  rcases hfc : s.firstContentTime with _ | f0
  · rw [hfc] at hf
    rcases hcl : s.contextLine with _ | l
    · rw [hcl] at hf; simp at hf
    · rw [hcl] at hf
      by_cases h0 : (0 : Int) ≤ l
      · simp [h0] at hf; exact Or.inr hf.symm
      · simp [h0] at hf
  · rw [hfc] at hf; simp at hf; subst hf; exact Or.inl rfl

lemma ingestVel_length (l : List ASample) : (ingestVel l).length = l.length := by
  rcases l with _ | ⟨c, _ | ⟨p, rest⟩⟩ <;> simp [ingestVel]

lemma ingestVel_head (e : ASample) (l : List ASample) :
    ∃ e' tl, ingestVel (e :: l) = e' :: tl ∧ e'.t = e.t ∧ e'.x = e.x ∧
      e'.y = e.y ∧ e'.line = e.line ∧ e'.gx = e.gx ∧ e'.didFire = e.didFire := by
  rcases l with _ | ⟨p, rest⟩
  · exact ⟨e, [], rfl, rfl, rfl, rfl, rfl, rfl, rfl⟩
  · by_cases hdt : 0 < e.t - p.t
    · refine ⟨{ e with vx := some ((e.x - p.x) / ((e.t - p.t : Int) : Rat)),
                       vy := some ((e.y - p.y) / ((e.t - p.t : Int) : Rat)) },
              p :: rest, ?_, rfl, rfl, rfl, rfl, rfl, rfl⟩
      simp [ingestVel, hdt]
    · refine ⟨{ e with vx := some 0, vy := some 0 },
              p :: rest, ?_, rfl, rfl, rfl, rfl, rfl, rfl⟩
      simp [ingestVel, hdt]

lemma ingestCore_dataRev (ts : Int) (x y : Rat) (s : GazeState) :
    (ingestCore ts x y s).dataRev =
      ingestVel (if MAX_BUFFER_SIZE < s.dataRev.length + 1
                 then (mkEntry ts x y s :: s.dataRev).take (s.dataRev.length + 1 - trimCount)
                 else mkEntry ts x y s :: s.dataRev) := by
  by_cases htrim : MAX_BUFFER_SIZE < s.dataRev.length + 1 <;>
    simp [ingestCore, htrim]

lemma ingestCore_len (ts : Int) (x y : Rat) (s : GazeState)
    (h : s.dataRev.length ≤ MAX_BUFFER_SIZE) :
    (ingestCore ts x y s).dataRev.length ≤ MAX_BUFFER_SIZE := by
  rw [ingestCore_dataRev, ingestVel_length]
  by_cases htrim : MAX_BUFFER_SIZE < s.dataRev.length + 1 <;>
    simp [htrim, List.length_take]
  · unfold MAX_BUFFER_SIZE trimCount at *
    omega
  · unfold MAX_BUFFER_SIZE at *
    omega

lemma ingestCore_head (ts : Int) (x y : Rat) (s : GazeState) :
    ∃ e tl, (ingestCore ts x y s).dataRev = e :: tl ∧
      e.t = tOf s ts ∧ e.x = x ∧ e.y = y ∧ e.line = s.contextLine ∧
      e.gx = none ∧ e.didFire = false := by
  rw [ingestCore_dataRev]
  by_cases htrim : MAX_BUFFER_SIZE < s.dataRev.length + 1
  · rw [if_pos htrim]
    have hk : s.dataRev.length + 1 - trimCount = (s.dataRev.length - trimCount) + 1 := by
      unfold MAX_BUFFER_SIZE trimCount at *
      omega
    rw [hk, List.take_succ_cons]
    obtain ⟨e', tl, hvel, h1, h2, h3, h4, h5, h6⟩ :=
      ingestVel_head (mkEntry ts x y s) (s.dataRev.take (s.dataRev.length - trimCount))
    exact ⟨e', tl, hvel, by simp [mkEntry] at h1 h2 h3 h4 h5 h6 ⊢ <;>
      simp [h1, h2, h3, h4, h5, h6]⟩
  · rw [if_neg htrim]
    obtain ⟨e', tl, hvel, h1, h2, h3, h4, h5, h6⟩ :=
      ingestVel_head (mkEntry ts x y s) s.dataRev
    exact ⟨e', tl, hvel, by simp [mkEntry] at h1 h2 h3 h4 h5 h6 ⊢ <;>
      simp [h1, h2, h3, h4, h5, h6]⟩

lemma processGaze_eq (ts : Int) (x y : Rat) (s : GazeState)
    (hp : s.pendingReturnSweep = none) :
    processGaze ts x y s =
      ((detectStep (ingestCore ts x y s)).1,
       (detectStep (ingestCore ts x y s)).2.toList) := by
  obtain ⟨e, tl, he, -, -, -, -, -, -⟩ := ingestCore_head ts x y s
  have hp1 : (ingestCore ts x y s).pendingReturnSweep = none := by
    rw [(ingestCore_proj ts x y s).1, hp]
  simp [processGaze, he, pendingResolve_none _ _ _ hp1]

lemma detInv_ingest (ts : Int) (x y : Rat) (s : GazeState) (h : DetInv s) :
    DetInv (ingestCore ts x y s) := by
  obtain ⟨h1, h2, h3, h4, h5, h6, h7⟩ := h
  obtain ⟨p1, p2, p3, p4, p5, pf⟩ := ingestCore_proj ts x y s
  refine ⟨by rw [p1]; exact h1, by rw [p2]; exact h2,
          by rw [p2, p3, p4]; exact h3, by rw [p2, p4]; exact h4,
          ?_, by rw [p3]; exact h6, ingestCore_len ts x y s h7⟩
  intro f hf
  rcases pf f hf with hold | hnew
  · exact h5 f hold
  · rw [hnew]; exact tOf_nonneg s ts

lemma detInv_detectCore (d0 d1 d2 : ASample) (s : GazeState) (h : DetInv s)
    (hne : s.dataRev ≠ []) :
    DetInv (detectCore d0 d1 d2 s).1 ∧
    (∀ e, (detectCore d0 d1 d2 s).2 = some e →
      e.kind = TriggerKind.immediate) := by
  obtain ⟨h1, h2, h3, h4, h5, h6, h7⟩ := h
  obtain ⟨q1, q2, q3, q4, q5, q6, q7, hcase⟩ := detectCore_proj d0 d1 d2 s
  have hlen : (detectCore d0 d1 d2 s).1.dataRev.length ≤ MAX_BUFFER_SIZE := by
    rw [q4]
    rcases hd : s.dataRev with _ | ⟨a, tll⟩
    · exact absurd hd hne
    · have h7' := h7; rw [hd] at h7'; simpa [hd] using h7'
  rcases hcase with ⟨e0, hlog, hmax, hltt⟩ |
    ⟨l, f, hl, hl0, hml, hf, hf0, hft, hcool, hev, hlog, hmax, hltt⟩
  · refine ⟨⟨by rw [q1]; exact h1, by rw [hlog]; exact h2,
            by rw [hlog, hmax, hltt]; exact h3,
            by rw [hlog, hltt]; exact h4,
            ?_, by rw [hmax]; exact h6, hlen⟩, ?_⟩
    · intro f' hf'; rw [q2] at hf'; exact h5 f' hf'
    · intro e he; rw [e0] at he; exact absurd he (by simp)
  · have hf5 := h5 f hf
    have hl1 : 1 ≤ l := by omega
    have hd0t : 1 ≤ d0.t := by omega
    have hifl : (if 0 < l then l - 1 else 0) = l - 1 := if_pos (by omega)
    have hlttd : s.lastTriggerTime ≤ d0.t := by
      rcases hcool with hz | hge <;> omega
    refine ⟨⟨by rw [q1]; exact h1, ?_, ?_, ?_, ?_, ?_, hlen⟩, ?_⟩
    · rw [hlog, hifl]
      rw [List.pairwise_append]
      refine ⟨h2, List.pairwise_singleton _ _, ?_⟩
      intro a ha b hb
      rw [List.mem_singleton] at hb
      subst hb
      obtain ⟨hal, hat⟩ := h3 a ha
      rcases hcool with hz | hge
      · exact absurd hz (h4 (List.ne_nil_of_mem ha))
      · constructor <;> simp <;> omega
    · rw [hlog, hmax, hltt]
      intro e' he'
      rcases List.mem_append.mp he' with hmem | hmem
      · obtain ⟨hal, hat⟩ := h3 e' hmem
        constructor <;> omega
      · rw [List.mem_singleton] at hmem
        subst hmem
        rw [hifl]
        constructor <;> simp <;> omega
    · rw [hltt]; intro; omega
    · intro f' hf'; rw [q2] at hf'; exact h5 f' hf'
    · rw [hmax]; omega
    · intro e he
      rw [hev] at he
      have := Option.some.inj he
      rw [← this]

lemma detInv_processGaze (ts : Int) (x y : Rat) (s : GazeState) (h : DetInv s) :
    DetInv (processGaze ts x y s).1 ∧
    ∀ e ∈ (processGaze ts x y s).2, e.kind = TriggerKind.immediate := by
  rw [processGaze_eq ts x y s h.1]
  have hinv1 : DetInv (ingestCore ts x y s) := detInv_ingest ts x y s h
  rcases detectStep_spec (ingestCore ts x y s) with hid |
    ⟨d0, d1, d2, d3, d4, rest, hdat, hdet⟩
  · rw [hid]; exact ⟨hinv1, by simp⟩
  · have hne : (ingestCore ts x y s).dataRev ≠ [] := by rw [hdat]; simp
    obtain ⟨hi, hk⟩ := detInv_detectCore d0 d1 d2 (ingestCore ts x y s) hinv1 hne
    rw [hdet]
    refine ⟨hi, ?_⟩
    intro e he
    simp only [Option.mem_toList, Option.mem_def] at he
    exact hk e he

lemma processGaze_fire_char (ts : Int) (x y : Rat) (s : GazeState)
    (h : DetInv s) :
    ∀ e ∈ (processGaze ts x y s).2,
      ∃ l, s.contextLine = some l ∧ l ≠ 0 ∧ s.maxLineIndexReached < l ∧
        e.line = l - 1 := by
  rw [processGaze_eq ts x y s h.1]
  rcases detectStep_spec (ingestCore ts x y s) with hid |
    ⟨d0, d1, d2, d3, d4, rest, hdat, hdet⟩
  · rw [hid]; simp
  · rw [hdet]
    intro e he
    simp only [Option.mem_toList, Option.mem_def] at he
    obtain ⟨q1, q2, q3, q4, q5, q6, q7, hcase⟩ :=
      detectCore_proj d0 d1 d2 (ingestCore ts x y s)
    rcases hcase with ⟨e0, -, -, -⟩ |
      ⟨l, f, hl, hl0, hml, -, -, -, -, hev, -, -, -⟩
    · rw [e0] at he; exact absurd he (by simp)
    · rw [hev] at he
      have heq := Option.some.inj he
      obtain ⟨eh, tl, hhead, -, -, -, hline, -, -⟩ := ingestCore_head ts x y s
      rw [hdat] at hhead
      have hd0 : d0 = eh := (List.cons.injEq _ _ _ _ ▸ hhead).1
      have hctx : s.contextLine = some l := by
        rw [← hline, ← hd0, hl]
      have hmax : s.maxLineIndexReached < l := by
        rw [← (ingestCore_proj ts x y s).2.2.1]; exact hml
      have hl1 : 1 ≤ l := by
        have h6 := h.2.2.2.2.2.1
        omega
      refine ⟨l, hctx, by omega, hmax, ?_⟩
      rw [← heq]
      simp
      omega

lemma detInv_resetTriggers (s : GazeState) (h : DetInv s) :
    DetInv (resetTriggers s) := by
  obtain ⟨-, -, -, -, -, -, h7⟩ := h
  exact ⟨rfl, List.Pairwise.nil, by simp [resetTriggers], by simp [resetTriggers],
         by simp [resetTriggers], by norm_num [resetTriggers], h7⟩

lemma detInv_reset (s : GazeState) : DetInv (reset s) := by
  refine ⟨rfl, List.Pairwise.nil, by simp [reset], by simp [reset],
          by simp [reset], by norm_num [reset], by simp [reset, MAX_BUFFER_SIZE]⟩

lemma detInv_clearGazeData (s : GazeState) (h : DetInv s) :
    DetInv (clearGazeData s) := by
  obtain ⟨h1, h2, h3, h4, h5, h6, -⟩ := h
  exact ⟨h1, h2, h3, h4, h5, h6, by simp [clearGazeData, MAX_BUFFER_SIZE]⟩

lemma detInv_applyAction (s : GazeState) (a : SessionOp) (h : DetInv s) :
    DetInv (applyAction s a).1 ∧
    ∀ e ∈ (applyAction s a).2, e.kind = TriggerKind.immediate := by
  cases a with
  | ingest ts x y => exact detInv_processGaze ts x y s h
  | setContext l =>
      obtain ⟨h1, h2, h3, h4, h5, h6, h7⟩ := h
      exact ⟨⟨h1, h2, h3, h4, h5, h6, h7⟩, by simp [applyAction]⟩
  | resetTriggers => exact ⟨detInv_resetTriggers s h, by simp [applyAction]⟩
  | reset => exact ⟨detInv_reset s, by simp [applyAction]⟩
  | clearGazeData => exact ⟨detInv_clearGazeData s h, by simp [applyAction]⟩

lemma execState_detInv : ∀ (tr : List SessionOp) (s : GazeState),
    DetInv s → DetInv (execState s tr)
  | [], _, h => h
  | a :: tr, s, h =>
      execState_detInv tr (applyAction s a).1 (detInv_applyAction s a h).1

lemma execOut_immediate : ∀ (tr : List SessionOp) (s : GazeState),
    DetInv s → ∀ e ∈ execOut s tr, e.kind = TriggerKind.immediate
  | [], _, _ => by simp [execOut]
  | a :: tr, s, h => by
      intro e he
      rcases List.mem_append.mp he with h1 | h2
      · exact (detInv_applyAction s a h).2 e h1
      · exact execOut_immediate tr (applyAction s a).1
          (detInv_applyAction s a h).1 e h2

lemma fireEffect_fct (k : TriggerKind) (v : Rat) (s : GazeState) :
    (fireEffect k v s).1.firstContentTime = s.firstContentTime := by
  cases h : s.dataRev <;> simp [fireEffect, h]

lemma pendingResolve_fct (t : Int) (l : Option Int) (s : GazeState) :
    (pendingResolve t l s).1.firstContentTime = s.firstContentTime := by
  rcases hp : s.pendingReturnSweep with _ | p
  · rw [pendingResolve_none t l s hp]
  · cases l
    · simp [pendingResolve, hp]
    · by_cases hlt : t - p.1 < 1000 <;>
        simp [pendingResolve, hp, hlt, fireEffect_fct]

lemma detectStep_fct (s : GazeState) :
    (detectStep s).1.firstContentTime = s.firstContentTime := by
  rcases detectStep_spec s with hid | ⟨d0, d1, d2, d3, d4, rest, hdat, hdet⟩
  · rw [hid]
  · rw [hdet]; exact (detectCore_proj d0 d1 d2 s).2.1

lemma processGaze_fct (ts : Int) (x y : Rat) (s : GazeState) :
    (processGaze ts x y s).1.firstContentTime =
      (ingestCore ts x y s).firstContentTime := by
  obtain ⟨e, tl, he, -, -, -, -, -, -⟩ := ingestCore_head ts x y s
  simp only [processGaze, he]
  rw [detectStep_fct, pendingResolve_fct]

lemma detectCore_gate0 (d0 d1 d2 : ASample) (s : GazeState)
    (hf : s.firstContentTime = some 0) :
    (detectCore d0 d1 d2 s).2 = none := by
  simp [detectCore, hf, firstContentGate]

lemma blocked_step (s : GazeState) (a : SessionOp) (h : DetInv s)
    (hfct : s.firstContentTime = some 0)
    (ha : a ≠ SessionOp.resetTriggers ∧ a ≠ SessionOp.reset) :
    (applyAction s a).2 = [] ∧
    (applyAction s a).1.firstContentTime = some 0 ∧
    DetInv (applyAction s a).1 := by
  cases a with
  | setContext l => exact ⟨rfl, hfct, (detInv_applyAction s _ h).1⟩
  | clearGazeData => exact ⟨rfl, hfct, (detInv_applyAction s _ h).1⟩
  | resetTriggers => exact absurd rfl ha.1
  | reset => exact absurd rfl ha.2
  | ingest ts x y =>
    have hfct' : (ingestCore ts x y s).firstContentTime = some 0 := by
      simp [ingestCore, hfct]
    refine ⟨?_, ?_, (detInv_applyAction s _ h).1⟩
    · show (processGaze ts x y s).2 = []
      rw [processGaze_eq ts x y s h.1]
      rcases detectStep_spec (ingestCore ts x y s) with hid |
        ⟨d0, d1, d2, d3, d4, rest, hdat, hdet⟩
      · rw [hid]; rfl
      · rw [hdet]
        simp [detectCore_gate0 d0 d1 d2 _ hfct']
    · show (processGaze ts x y s).1.firstContentTime = some 0
      rw [processGaze_fct, hfct']

lemma blocked_trace : ∀ (tr : List SessionOp) (s : GazeState), DetInv s →
    s.firstContentTime = some 0 →
    (∀ a ∈ tr, a ≠ SessionOp.resetTriggers ∧ a ≠ SessionOp.reset) →
    execOut s tr = [] ∧ (execState s tr).firstContentTime = some 0
  | [], _, _, hf, _ => ⟨rfl, hf⟩
  | a :: tr, s, h, hf, ha => by
      obtain ⟨h1, h2, h3⟩ := blocked_step s a h hf (ha a (List.mem_cons_self a tr))
      obtain ⟨ih1, ih2⟩ := blocked_trace tr (applyAction s a).1 h3 h2
        (fun b hb => ha b (List.mem_cons_of_mem a hb))
      exact ⟨by simp [execOut, h1, ih1], ih2⟩

/-! ### Claim theorems for the detector (C1, C2, C3, C10) -/

/-- A base session whose fifth frame completes a return-sweep cascade
on `line = 1`: rising raw x (100, 150, 200) followed by a sharp
leftward drop (40, 35) at 30 Hz. -/
def c1Trace : List SessionOp :=
  [SessionOp.ingest 1000 100 0,
   SessionOp.setContext (some 1),
   SessionOp.ingest 1033 150 0,
   SessionOp.ingest 1066 200 0,
   SessionOp.ingest 1099 40 0]

/-- C1: within one content unit every fired line-advance event has a
strictly larger triggering line than any previously fired event —
the per-unit event log `pangLog` is strictly increasing in
`targetLine`, and a frame can only fire when the triggering sample
carries a defined context line `l` with `l ≠ 0` (line 0 never fires)
and `l` strictly above the monotonic guard `maxLineIndexReached`, the
fired event completing line `l - 1`. -/
theorem c1_monotonic_line_guard (tr : List SessionOp) (ts : Int) (x y : Rat) :
    ((execState initState tr).pangLog.Pairwise fun a b => a.line < b.line) ∧
    ∀ e ∈ (processGaze ts x y (execState initState tr)).2,
      ∃ l, (execState initState tr).contextLine = some l ∧ l ≠ 0 ∧
        (execState initState tr).maxLineIndexReached < l ∧ e.line = l - 1 := by
  have hinv := execState_detInv tr initState initState_detInv
  exact ⟨hinv.2.1.imp fun h => h.1, processGaze_fire_char ts x y _ hinv⟩

unseal Rat.mul Rat.inv Rat.add Rat.sub Rat.ofScientific in
/-- Witness for C1: on the concrete cascade `c1Trace` the fifth frame
fires, and the theorem yields its guard facts at that input. -/
theorem c1_witness :
    ∃ l, (execState initState c1Trace).contextLine = some l ∧ l ≠ 0 ∧
      (execState initState c1Trace).maxLineIndexReached < l ∧
      ({ t := 132, line := 0, kind := TriggerKind.immediate,
         vx := -160/33 } : PangEvent).line = l - 1 :=
  (c1_monotonic_line_guard c1Trace 1132 35 0).2 _ (by decide)

/-- A session with two qualifying cascades separated by 99 ms, with a
`resetTriggers` (new content unit) between them. -/
def c2Trace : List SessionOp :=
  [SessionOp.ingest 1000 100 0,
   SessionOp.setContext (some 1),
   SessionOp.ingest 1033 150 0,
   SessionOp.ingest 1066 200 0,
   SessionOp.ingest 1099 40 0,
   SessionOp.ingest 1132 35 0,
   SessionOp.resetTriggers,
   SessionOp.ingest 1165 200 0,
   SessionOp.ingest 1198 40 0,
   SessionOp.ingest 1231 35 0]

unseal Rat.mul Rat.inv Rat.add Rat.sub Rat.ofScientific in
/-- C2 counterexample: in one session (one `GazeDataManager` instance,
one continuous timeline) two line-advance events fire 99 ms < 500 ms
apart, because the intervening `resetTriggers` call cleared
`lastTriggerTime` and the cooldown gate skips when its anchor is 0. -/
theorem c2_counterexample :
    execOut initState c2Trace =
      [{ t := 132, line := 0, kind := TriggerKind.immediate, vx := -160/33 },
       { t := 231, line := 0, kind := TriggerKind.immediate, vx := -160/33 }] ∧
    (231 : Int) - 132 < 500 := by
  constructor
  · decide
  · decide

/-- C2 amended: WITHIN ONE CONTENT UNIT (no intervening `resetTriggers`
or `reset`, i.e. among the events of the per-unit log `pangLog`) any
two fired events are at least 500 ms apart. -/
theorem c2_refractory_within_unit (tr : List SessionOp) :
    (execState initState tr).pangLog.Pairwise fun a b => 500 ≤ b.t - a.t :=
  ((execState_detInv tr initState initState_detInv).2.1).imp fun h => by omega

/-- The cascade of `c1Trace`/`c2Trace` but with the context line made
undefined (`setContext` with no line) before the sweep frames: the
kinematics are identical, but the triggering sample's `line` is
undefined. -/
def c3Trace : List SessionOp :=
  [SessionOp.ingest 1000 100 0,
   SessionOp.setContext (some 1),
   SessionOp.ingest 1033 150 0,
   SessionOp.ingest 1066 200 0,
   SessionOp.setContext none,
   SessionOp.ingest 1099 40 0,
   SessionOp.ingest 1132 35 0]

/-- `c3Trace` with the context left in place: the very same cascade
fires, showing that on `c3Trace` every check except the context guard
passes. -/
def c3TraceCtx : List SessionOp :=
  [SessionOp.ingest 1000 100 0,
   SessionOp.setContext (some 1),
   SessionOp.ingest 1033 150 0,
   SessionOp.ingest 1066 200 0,
   SessionOp.ingest 1099 40 0,
   SessionOp.ingest 1132 35 0]

unseal Rat.mul Rat.inv Rat.add Rat.sub Rat.ofScientific in
/-- C3 counterexample: on `c3Trace` the cascade passes the peak/valley,
global-gate and timing-window checks (the identical-kinematics session
`c3TraceCtx` fires, last conjunct) while the current sample's `line` is
undefined — yet NO pending event is queued (`pendingReturnSweep` stays
`null`; the only assignments to it in the source are `null`) and
nothing ever fires. -/
theorem c3_counterexample :
    (execState initState c3Trace).pendingReturnSweep = none ∧
    execOut initState c3Trace = [] ∧
    execOut initState c3TraceCtx =
      [{ t := 132, line := 0, kind := TriggerKind.immediate, vx := -160/33 }] := by
  refine ⟨by decide, by decide, by decide⟩

/-- C3 amended: when a cascade passes every check but the sample's
`line` is undefined, the detector rejects WITHOUT queueing anything:
`pendingReturnSweep` is `null` in every reachable state, so the
pending-resolution branch of `processGaze` is dead code and every
event that ever fires is an `Immediate` one (none is ever `Delayed`). -/
theorem c3_no_pending_ever (tr : List SessionOp) :
    (execState initState tr).pendingReturnSweep = none ∧
    ∀ e ∈ execOut initState tr, e.kind = TriggerKind.immediate :=
  ⟨(execState_detInv tr initState initState_detInv).1,
   execOut_immediate tr initState initState_detInv⟩

unseal Rat.mul Rat.inv Rat.add Rat.sub Rat.ofScientific in
/-- Witness for C3 (amended): at the concrete firing session
`c3TraceCtx` the fired event is an `Immediate` one, and on `c3Trace`
the pending slot is empty. -/
theorem c3_witness :
    (execState initState c3Trace).pendingReturnSweep = none ∧
    ({ t := 132, line := 0, kind := TriggerKind.immediate,
       vx := -160/33 } : PangEvent).kind = TriggerKind.immediate :=
  ⟨(c3_no_pending_ever c3Trace).1,
   (c3_no_pending_ever c3TraceCtx).2 _ (by decide)⟩

/-- A session whose first context-annotated frame is the very first
frame: its relative timestamp is `t = 0`. -/
def c10Trace : List SessionOp :=
  [SessionOp.setContext (some 1), SessionOp.ingest 1000 5 5]

/-- The continuation frames after `c10Trace`: the same qualifying
cascade as `c1Trace`, which would fire were the content gate passed. -/
def c10Tail : List SessionOp :=
  [SessionOp.ingest 1033 150 0,
   SessionOp.ingest 1066 200 0,
   SessionOp.ingest 1099 40 0,
   SessionOp.ingest 1132 35 0]

/-- C10: if the first context-annotated sample of a content unit
arrives at relative time 0, `firstContentTime` is set to `some 0`, and
because the content-start gate tests JS truthiness
(`!this.firstContentTime`), a zero `firstContentTime` rejects every
subsequent frame: no line-advance event ever fires until a
`resetTriggers` or `reset` clears it. -/
theorem c10_zero_content_time_blocks :
    (∀ (s : GazeState) (ts : Int) (x y : Rat) (l : Int),
      s.firstContentTime = none → s.contextLine = some l → 0 ≤ l →
      tOf s ts = 0 →
      (processGaze ts x y s).1.firstContentTime = some 0) ∧
    (∀ (tr1 tr2 : List SessionOp),
      (execState initState tr1).firstContentTime = some 0 →
      (∀ a ∈ tr2, a ≠ SessionOp.resetTriggers ∧ a ≠ SessionOp.reset) →
      execOut (execState initState tr1) tr2 = [] ∧
      (execState (execState initState tr1) tr2).firstContentTime = some 0) := by
  constructor
  · intro s ts x y l hfct hctx hl h0
    rw [processGaze_fct]
    simp [ingestCore, hfct, hctx, hl, h0]
  · intro tr1 tr2 hfct hno
    exact blocked_trace tr2 (execState initState tr1)
      (execState_detInv tr1 initState initState_detInv) hfct hno

unseal Rat.mul Rat.inv Rat.add Rat.sub Rat.ofScientific in
/-- Witness for C10: after `c10Trace` the content-start time is stuck
at 0 and the otherwise-qualifying cascade `c10Tail` fires nothing. -/
theorem c10_witness :
    (processGaze 1000 5 5 (execState initState [SessionOp.setContext (some 1)])).1.firstContentTime
      = some 0 ∧
    execOut (execState initState c10Trace) c10Tail = [] := by
  constructor
  · exact c10_zero_content_time_blocks.1 _ 1000 5 5 1 (by decide) (by decide)
      (by decide) (by decide)
  · exact (c10_zero_content_time_blocks.2 c10Trace c10Tail (by decide)
      (by decide)).1

/-! ### Buffer capacity and cursors (C4) -/

/-- The cursor sanity property of the claim: the buffer is within
capacity and the upload, preprocessing and search-floor cursors all
point inside it (being `Nat`, they cannot point before index 0). -/
def CursorInv (s : GazeState) : Prop :=
  s.dataRev.length ≤ MAX_BUFFER_SIZE ∧
  s.lastUploadedIndex ≤ s.dataRev.length ∧
  s.lastPreprocessIndex ≤ s.dataRev.length ∧
  s.searchStartIndex ≤ s.dataRev.length

lemma fireEffect_frame (k : TriggerKind) (v : Rat) (s : GazeState) :
    (fireEffect k v s).1.lastUploadedIndex = s.lastUploadedIndex ∧
    (fireEffect k v s).1.lastPreprocessIndex = s.lastPreprocessIndex ∧
    (fireEffect k v s).1.searchStartIndex = s.searchStartIndex ∧
    (fireEffect k v s).1.dataRev.length = s.dataRev.length ∧
    (fireEffect k v s).1.wpm = s.wpm ∧
    (fireEffect k v s).1.validWordSum = s.validWordSum ∧
    (fireEffect k v s).1.validTimeSum = s.validTimeSum := by
  cases h : s.dataRev <;> simp [fireEffect, h]

lemma pendingResolve_frame (t : Int) (l : Option Int) (s : GazeState) :
    (pendingResolve t l s).1.lastUploadedIndex = s.lastUploadedIndex ∧
    (pendingResolve t l s).1.lastPreprocessIndex = s.lastPreprocessIndex ∧
    (pendingResolve t l s).1.searchStartIndex = s.searchStartIndex ∧
    (pendingResolve t l s).1.dataRev.length = s.dataRev.length := by
  rcases hp : s.pendingReturnSweep with _ | p
  · rw [pendingResolve_none t l s hp]
    exact ⟨rfl, rfl, rfl, rfl⟩
  · cases l
    · simp [pendingResolve, hp]
    · by_cases hlt : t - p.1 < 1000 <;>
        simp [pendingResolve, hp, hlt,
              (fireEffect_frame TriggerKind.delayed p.2 s).1,
              (fireEffect_frame TriggerKind.delayed p.2 s).2.1,
              (fireEffect_frame TriggerKind.delayed p.2 s).2.2.1,
              (fireEffect_frame TriggerKind.delayed p.2 s).2.2.2.1]

lemma detectStep_frame (s : GazeState) :
    (detectStep s).1.lastUploadedIndex = s.lastUploadedIndex ∧
    (detectStep s).1.lastPreprocessIndex = s.lastPreprocessIndex ∧
    (detectStep s).1.searchStartIndex = s.searchStartIndex ∧
    (detectStep s).1.dataRev.length = s.dataRev.length := by
  rcases detectStep_spec s with hid | ⟨d0, d1, d2, d3, d4, rest, hdat, hdet⟩
  · rw [hid]; exact ⟨rfl, rfl, rfl, rfl⟩
  · obtain ⟨-, -, -, q4, q5, q6, q7, -⟩ := detectCore_proj d0 d1 d2 s
    rw [hdet]
    refine ⟨q5, q6, q7, ?_⟩
    rw [q4, hdat]
    simp

lemma ingestCore_cursors (ts : Int) (x y : Rat) (s : GazeState)
    (h : CursorInv s) : CursorInv (ingestCore ts x y s) := by
  obtain ⟨hlen, hu, hq, hs⟩ := h
  have hdr := ingestCore_dataRev ts x y s
  by_cases htrim : MAX_BUFFER_SIZE < s.dataRev.length + 1
  · have hlen' : (ingestCore ts x y s).dataRev.length =
        s.dataRev.length + 1 - trimCount := by
      rw [hdr, if_pos htrim, ingestVel_length, List.length_take]
      simp
    have hcur : (ingestCore ts x y s).lastUploadedIndex =
          s.lastUploadedIndex - trimCount ∧
        (ingestCore ts x y s).lastPreprocessIndex =
          s.lastPreprocessIndex - trimCount ∧
        (ingestCore ts x y s).searchStartIndex =
          s.searchStartIndex - trimCount := by
      refine ⟨?_, ?_, ?_⟩ <;> simp [ingestCore, htrim]
    obtain ⟨hc1, hc2, hc3⟩ := hcur
    refine ⟨?_, ?_, ?_, ?_⟩ <;>
      rw [hlen'] <;> first
        | (unfold MAX_BUFFER_SIZE trimCount at *; omega)
        | (rw [hc1]; omega) | (rw [hc2]; omega) | (rw [hc3]; omega)
  · have hlen' : (ingestCore ts x y s).dataRev.length =
        s.dataRev.length + 1 := by
      rw [hdr, if_neg htrim, ingestVel_length]
      simp
    have hcur : (ingestCore ts x y s).lastUploadedIndex =
          s.lastUploadedIndex ∧
        (ingestCore ts x y s).lastPreprocessIndex =
          s.lastPreprocessIndex ∧
        (ingestCore ts x y s).searchStartIndex = s.searchStartIndex := by
      refine ⟨?_, ?_, ?_⟩ <;> simp [ingestCore, htrim]
    obtain ⟨hc1, hc2, hc3⟩ := hcur
    refine ⟨?_, ?_, ?_, ?_⟩ <;> rw [hlen'] <;>
      first
        | omega
        | (rw [hc1]; omega) | (rw [hc2]; omega) | (rw [hc3]; omega)

/-- A session in which `clearGazeData` (which empties the buffer but
does NOT reset `searchStartIndex`) runs between a `resetTriggers`
(which set the search floor to the then-current length 5) and the next
ingest. -/
def c4Trace : List SessionOp :=
  [SessionOp.ingest 1000 100 0,
   SessionOp.ingest 1033 100 0,
   SessionOp.ingest 1066 100 0,
   SessionOp.ingest 1099 100 0,
   SessionOp.ingest 1132 100 0,
   SessionOp.resetTriggers,
   SessionOp.clearGazeData,
   SessionOp.ingest 2000 1 1]

unseal Rat.mul Rat.inv Rat.add Rat.sub Rat.ofScientific in
/-- C4 counterexample: after the final ingest of `c4Trace` the
search-floor cursor (5) exceeds the buffer length (1), because
`clearGazeData` empties the buffer without resetting
`searchStartIndex`; so "after every ingest every cursor satisfies
`cursor ≤ buffer.length`" fails. -/
theorem c4_counterexample :
    (execState initState c4Trace).searchStartIndex = 5 ∧
    (execState initState c4Trace).dataRev.length = 1 ∧
    ¬ (execState initState c4Trace).searchStartIndex ≤
        (execState initState c4Trace).dataRev.length := by
  refine ⟨by decide, by decide, by decide⟩

/-- C4 amended: after every ingest the buffer holds at most
`MAX_BUFFER_SIZE = 9000` samples (in every reachable session state);
an over-capacity append removes the oldest `trimCount = 900` samples
and shifts the preprocessing, upload and search-floor cursors down by
the trimmed count clamped at zero, so no cursor ever points before
index 0 (they are naturals), and an ingest PRESERVES
`0 ≤ cursor ≤ buffer.length` from any state satisfying it — the bound
itself can be broken beforehand only by `clearGazeData` leaving a
stale search floor, as the counterexample shows. -/
theorem c4_capacity_and_cursor_preservation :
    (∀ tr : List SessionOp,
      (execState initState tr).dataRev.length ≤ MAX_BUFFER_SIZE) ∧
    (∀ (ts : Int) (x y : Rat) (s : GazeState),
      CursorInv s → CursorInv (processGaze ts x y s).1) := by
  constructor
  · intro tr
    exact (execState_detInv tr initState initState_detInv).2.2.2.2.2.2
  · intro ts x y s h
    have h1 : CursorInv (ingestCore ts x y s) := ingestCore_cursors ts x y s h
    obtain ⟨e, tl, he, -, -, -, -, -, -⟩ := ingestCore_head ts x y s
    obtain ⟨hl1, hl2, hl3, hl4⟩ := h1
    simp only [processGaze, he]
    obtain ⟨p1, p2, p3, p4⟩ :=
      pendingResolve_frame e.t e.line (ingestCore ts x y s)
    obtain ⟨q1, q2, q3, q4⟩ :=
      detectStep_frame (pendingResolve e.t e.line (ingestCore ts x y s)).1
    exact ⟨by rw [q4, p4]; exact hl1, by rw [q1, q4, p1, p4]; exact hl2,
           by rw [q2, q4, p2, p4]; exact hl3, by rw [q3, q4, p3, p4]; exact hl4⟩

/-- Witness for C4 (amended): the preservation clause applied at the
constructor state, whose cursors trivially satisfy the bound. -/
theorem c4_witness : CursorInv (processGaze 1000 1 1 initState).1 :=
  c4_capacity_and_cursor_preservation.2 1000 1 1 initState
    (by unfold CursorInv; refine ⟨?_, ?_, ?_, ?_⟩ <;> decide)

/-! ### resetTriggers frame (C9) -/

/-- A session that fires on line 5 (driving `maxLineIndexReached` to
5), calls `resetTriggers`, and then fires again on line 2. -/
def c9Trace : List SessionOp :=
  [SessionOp.ingest 1000 100 0,
   SessionOp.setContext (some 5),
   SessionOp.ingest 1033 150 0,
   SessionOp.ingest 1066 200 0,
   SessionOp.ingest 1099 40 0,
   SessionOp.ingest 1132 35 0,
   SessionOp.resetTriggers,
   SessionOp.setContext (some 2),
   SessionOp.ingest 1165 200 0,
   SessionOp.ingest 1198 40 0,
   SessionOp.ingest 1231 35 0]

unseal Rat.mul Rat.inv Rat.add Rat.sub Rat.ofScientific in
/-- C9: `resetTriggers` leaves the cumulative speed-estimator fields
(`wpm`, `validWordSum`, `validTimeSum`) and the sample buffer
untouched, while clearing the detector's transient guard state
(refractory anchor `lastTriggerTime`, peak timer `lastPosPeakTime`,
pending event, and the monotonic guard `maxLineIndexReached` back to
its initial floor -1); only a full `reset` zeroes the cumulative
fields.  Concretely (last conjuncts): in `c9Trace` the guard reached 5
before `resetTriggers`, and afterwards a cascade on line 2 fires
(completing line 1). -/
theorem c9_resetTriggers_frame :
    (∀ s : GazeState,
      (resetTriggers s).wpm = s.wpm ∧
      (resetTriggers s).validWordSum = s.validWordSum ∧
      (resetTriggers s).validTimeSum = s.validTimeSum ∧
      (resetTriggers s).dataRev = s.dataRev ∧
      (resetTriggers s).lastTriggerTime = 0 ∧
      (resetTriggers s).lastPosPeakTime = 0 ∧
      (resetTriggers s).pendingReturnSweep = none ∧
      (resetTriggers s).maxLineIndexReached = -1 ∧
      (reset s).wpm = 0 ∧
      (reset s).validWordSum = 0 ∧
      (reset s).validTimeSum = 0) ∧
    (execState initState (c9Trace.take 6)).maxLineIndexReached = 5 ∧
    execOut initState c9Trace =
      [{ t := 132, line := 4, kind := TriggerKind.immediate, vx := -160/33 },
       { t := 231, line := 1, kind := TriggerKind.immediate, vx := -160/33 }] := by
  refine ⟨fun s => ⟨rfl, rfl, rfl, rfl, rfl, rfl, rfl, rfl, rfl, rfl, rfl⟩,
          by decide, by decide⟩

/-! ### The batch pass `preprocessData`

Samples here carry `Option Rat` raw coordinates: `none` embeds a
non-numeric or NaN value (the source's missingness test
`isNaN(curr.x) || isNaN(curr.y) || (curr.x === 0 && curr.y === 0) ||
typeof curr.x !== 'number'`). -/

structure PSample where
  t : Int
  x : Option Rat
  y : Option Rat
  gx : Option Rat := none
  gy : Option Rat := none
  vx : Option Rat := none
  vy : Option Rat := none
deriving DecidableEq, Repr

/-- The validity test of the interpolation scans:
`typeof p.x === 'number' && !isNaN(p.x) && !isNaN(p.y) && (p.x !== 0 || p.y !== 0)`. -/
def validB (p : PSample) : Bool :=
  match p.x, p.y with
  | some px, some py => !(px == 0 && py == 0)
  | _, _ => false

/-- The missingness test for the current sample (see section comment). -/
def missingB (c : PSample) : Bool :=
  match c.x, c.y with
  | some px, some py => px == 0 && py == 0
  | _, _ => true

/-- Read a coordinate that the source treats as a plain number at this
point (a valid neighbor's coordinate is always `some`). -/
def jsNum (o : Option Rat) : Rat := o.getD 0

/-- `while (prevIdx >= 0) ...`: nearest valid sample strictly before
index `i` (the argument counts down, starting at `i`, checking `i-1`
first). -/
def findPrevValid (d : List PSample) : Nat → Option Nat
  | 0 => none
  | i + 1 =>
    match d.get? i with
    | some p => if validB p then some i else findPrevValid d i
    | none => none

/-- `while (nextIdx < this.data.length) ...` with explicit fuel (the
list length bounds the scan; an out-of-range read ends it). -/
def findNextValidAux (d : List PSample) : Nat → Nat → Option Nat
  | _, 0 => none
  | j, fuel + 1 =>
    match d.get? j with
    | some p => if validB p then some j else findNextValidAux d (j + 1) fuel
    | none => none

def findNextValid (d : List PSample) (i : Nat) : Option Nat :=
  findNextValidAux d (i + 1) d.length

/-- The time-ratio of the linear interpolation
`(curr.t - p.t) / (n.t - p.t)`. -/
def interpFrac (p curr n : PSample) : Rat :=
  ((curr.t - p.t : Int) : Rat) / ((n.t - p.t : Int) : Rat)

/-- One iteration of the interpolation loop of `preprocessData`: a
missing sample with valid samples on BOTH sides is linearly
interpolated in place; otherwise (valid sample, or missing with at
most one valid side) nothing is assigned. -/
def interpOne (d : List PSample) (i : Nat) : List PSample :=
  match d.get? i with
  | none => d
  | some curr =>
    if missingB curr then
      match findPrevValid d i, findNextValid d i with
      | some pi, some ni =>
        match d.get? pi, d.get? ni with
        | some p, some n =>
          d.set i { curr with
            x := some (jsNum p.x + (jsNum n.x - jsNum p.x) * interpFrac p curr n),
            y := some (jsNum p.y + (jsNum n.y - jsNum p.y) * interpFrac p curr n) }
        | _, _ => d
      | _, _ => d
    else d

/-- `for (let i = startIdx; i < endIdx; i++)` over `interpOne`,
counting down the number of remaining iterations. -/
def interpLoopN : List PSample → Nat → Nat → List PSample
  | d, _, 0 => d
  | d, i, n + 1 => interpLoopN (interpOne d i) (i + 1) n

/-- `const kernel = [0.0545, 0.2442, 0.4026, 0.2442, 0.0545]`. -/
def kernel : List Rat := [0.0545, 0.2442, 0.4026, 0.2442, 0.0545]

/-- JS `undefined`-propagating arithmetic: any operation on NaN is
NaN. -/
def optAdd : Option Rat → Option Rat → Option Rat
  | some a, some b => some (a + b)
  | _, _ => none

def optSub : Option Rat → Option Rat → Option Rat
  | some a, some b => some (a - b)
  | _, _ => none

/-- One kernel tap: the contribution of `data[idx]` with weight `w`
to `(sumX, sumY, sumK)`; an out-of-range index contributes nothing. -/
def kTerm (d : List PSample) (idx : Int) (w : Rat) :
    Option Rat × Option Rat × Rat :=
  if 0 ≤ idx ∧ idx < (d.length : Int) then
    match d.get? idx.toNat with
    | some p => (p.x.map (· * w), p.y.map (· * w), w)
    | none => (some 0, some 0, 0)
  else (some 0, some 0, 0)

/-- One iteration of the smoothing-and-velocity loop of
`preprocessData`: write `gx = sumX / sumK`, `gy = sumY / sumK`
(renormalized by the in-range weight sum), then for `i > 0` the
finite-difference velocity of the SMOOTHED positions, zero when
`dt <= 0`. -/
def smoothVelOne (d : List PSample) (i : Nat) : List PSample :=
  match d.get? i with
  | none => d
  | some curr =>
    let t1 := kTerm d ((i : Int) - 2) (kernel.getD 0 0)
    let t2 := kTerm d ((i : Int) - 1) (kernel.getD 1 0)
    let t3 := kTerm d (i : Int) (kernel.getD 2 0)
    let t4 := kTerm d ((i : Int) + 1) (kernel.getD 3 0)
    let t5 := kTerm d ((i : Int) + 2) (kernel.getD 4 0)
    let sumX := optAdd (optAdd (optAdd (optAdd (optAdd (some 0) t1.1) t2.1) t3.1) t4.1) t5.1
    let sumY := optAdd (optAdd (optAdd (optAdd (optAdd (some 0) t1.2.1) t2.2.1) t3.2.1) t4.2.1) t5.2.1
    let sumK := t1.2.2 + t2.2.2 + t3.2.2 + t4.2.2 + t5.2.2
    let curr1 := { curr with gx := sumX.map (· / sumK), gy := sumY.map (· / sumK) }
    let d1 := d.set i curr1
    if i = 0 then d1
    else
      match d1.get? (i - 1) with
      | some prev =>
        let dt : Int := curr1.t - prev.t
        d1.set i (if 0 < dt then
            { curr1 with vx := (optSub curr1.gx prev.gx).map (· / (dt : Rat)),
                         vy := (optSub curr1.gy prev.gy).map (· / (dt : Rat)) }
          else { curr1 with vx := some 0, vy := some 0 })
      | none => d1

def smoothLoopN : List PSample → Nat → Nat → List PSample
  | d, _, 0 => d
  | d, i, n + 1 => smoothLoopN (smoothVelOne d i) (i + 1) n

/-- The slice of the manager state that `preprocessData()` touches. -/
structure PState where
  data : List PSample
  lastPreprocessIndex : Nat := 0
deriving DecidableEq, Repr

/-- `preprocessData()`: no-op on fewer than two samples or an empty
new slice, otherwise interpolation then smoothing+velocity over
`[max(0, lastPreprocessIndex - 2), data.length)`, finally advancing
the cursor. -/
def preprocessData (st : PState) : PState :=
  if st.data.length < 2 then st
  else
    let startIdx := st.lastPreprocessIndex - 2
    let endIdx := st.data.length
    if (endIdx : Int) - 1 ≤ (startIdx : Int) then st
    else
      { data := smoothLoopN (interpLoopN st.data startIdx (endIdx - startIdx))
                  startIdx (endIdx - startIdx),
        lastPreprocessIndex := endIdx }

lemma findPrevValid_spec (d : List PSample) :
    ∀ i j, findPrevValid d i = some j →
      j < i ∧ ∃ p, d.get? j = some p ∧ validB p = true := by
  intro i
  induction i with
  | zero => intro j h; simp [findPrevValid] at h
  | succ i ih =>
      intro j h
      unfold findPrevValid at h
      rcases hg : d.get? i with _ | p <;> rw [hg] at h
      · cases h
      · by_cases hv : validB p
        · simp [hv] at h
          subst h
          exact ⟨Nat.lt_succ_self i, p, hg, hv⟩
        · simp [hv] at h
          obtain ⟨hj, hp⟩ := ih j h
          exact ⟨Nat.lt_succ_of_lt hj, hp⟩

lemma findNextValidAux_spec (d : List PSample) :
    ∀ fuel j k, findNextValidAux d j fuel = some k →
      j ≤ k ∧ ∃ p, d.get? k = some p ∧ validB p = true := by
  intro fuel
  induction fuel with
  | zero => intro j k h; simp [findNextValidAux] at h
  | succ fuel ih =>
      intro j k h
      unfold findNextValidAux at h
      rcases hg : d.get? j with _ | p <;> rw [hg] at h
      · cases h
      · by_cases hv : validB p
        · simp [hv] at h
          subst h
          exact ⟨le_refl j, p, hg, hv⟩
        · simp [hv] at h
          obtain ⟨hk, hp⟩ := ih (j + 1) k h
          exact ⟨by omega, hp⟩

lemma findNextValid_spec (d : List PSample) (i k : Nat)
    (h : findNextValid d i = some k) :
    i < k ∧ ∃ p, d.get? k = some p ∧ validB p = true := by
  obtain ⟨hk, hp⟩ := findNextValidAux_spec d d.length (i + 1) k h
  exact ⟨by omega, hp⟩

lemma pairwise_get?_rel {R : PSample → PSample → Prop} {d : List PSample}
    (h : d.Pairwise R) {j k : Nat} {a b : PSample} (hjk : j < k)
    (ha : d.get? j = some a) (hb : d.get? k = some b) : R a b := by
  obtain ⟨hj, hja⟩ := List.get?_eq_some.mp ha
  obtain ⟨hk, hkb⟩ := List.get?_eq_some.mp hb
  have := List.pairwise_iff_get.mp h ⟨j, hj⟩ ⟨k, hk⟩ hjk
  rwa [hja, hkb] at this

lemma convex_bound (a b f : Rat) (h0 : 0 ≤ f) (h1 : f ≤ 1) :
    min a b ≤ a + (b - a) * f ∧ a + (b - a) * f ≤ max a b := by
  rcases le_total a b with h | h
  · rw [min_eq_left h, max_eq_right h]
    constructor <;> nlinarith
  · rw [min_eq_right h, max_eq_left h]
    constructor <;> nlinarith

/-- Scenario C of the spec: a `(0,0)` dropout sample at `t = 150`
between valid samples at `t = 100 (x = 50)` and `t = 200 (x = 70)`. -/
def c6Buf : PState :=
  { data := [{ t := 100, x := some 50, y := some 50 },
             { t := 150, x := some 0, y := some 0 },
             { t := 200, x := some 70, y := some 70 }] }

unseal Rat.mul Rat.inv Rat.add Rat.sub Rat.ofScientific in
/-- C6: for a missing sample with a valid sample on each side (the
nearest ones found by the backward/forward scans), the interpolation
step assigns `prev + (next - prev) * (t - t_prev)/(t_next - t_prev)`
to each coordinate, and — under strictly increasing timestamps — that
value lies within `[min(prev, next), max(prev, next)]` componentwise;
concretely, Scenario C interpolates the dropout at `t = 150` to
`x = 60`. -/
theorem c6_interpolation_bounds :
    (∀ (d : List PSample) (i pi ni : Nat) (curr p n : PSample),
      d.Pairwise (fun a b => a.t < b.t) →
      d.get? i = some curr → missingB curr = true →
      findPrevValid d i = some pi → findNextValid d i = some ni →
      d.get? pi = some p → d.get? ni = some n →
      (interpOne d i).get? i = some { curr with
          x := some (jsNum p.x + (jsNum n.x - jsNum p.x) * interpFrac p curr n),
          y := some (jsNum p.y + (jsNum n.y - jsNum p.y) * interpFrac p curr n) } ∧
      min (jsNum p.x) (jsNum n.x) ≤
        jsNum p.x + (jsNum n.x - jsNum p.x) * interpFrac p curr n ∧
      jsNum p.x + (jsNum n.x - jsNum p.x) * interpFrac p curr n ≤
        max (jsNum p.x) (jsNum n.x) ∧
      min (jsNum p.y) (jsNum n.y) ≤
        jsNum p.y + (jsNum n.y - jsNum p.y) * interpFrac p curr n ∧
      jsNum p.y + (jsNum n.y - jsNum p.y) * interpFrac p curr n ≤
        max (jsNum p.y) (jsNum n.y)) ∧
    ((preprocessData c6Buf).data.get? 1).map PSample.x = some (some 60) := by
  constructor
  · intro d i pi ni curr p n hsort hc hm hp hn hgp hgn
    obtain ⟨hpi_lt, -⟩ := findPrevValid_spec d i pi hp
    obtain ⟨hni_gt, -⟩ := findNextValid_spec d i ni hn
    have htp : p.t < curr.t := pairwise_get?_rel hsort hpi_lt hgp hc
    have htn : curr.t < n.t := pairwise_get?_rel hsort hni_gt hc hgn
    have hA : (0 : Rat) < ((curr.t - p.t : Int) : Rat) := by
      exact_mod_cast Int.sub_pos.mpr htp
    have hB : (0 : Rat) < ((n.t - p.t : Int) : Rat) := by
      exact_mod_cast Int.sub_pos.mpr (lt_trans htp htn)
    have hAB : ((curr.t - p.t : Int) : Rat) ≤ ((n.t - p.t : Int) : Rat) := by
      have : (curr.t - p.t : Int) ≤ (n.t - p.t : Int) := by omega
      exact_mod_cast this
    have hf0 : 0 ≤ interpFrac p curr n :=
      le_of_lt (div_pos hA hB)
    have hf1 : interpFrac p curr n ≤ 1 := by
      unfold interpFrac
      rw [div_le_one hB]
      exact hAB
    have hilen := (List.get?_eq_some.mp hc).1
    refine ⟨?_, (convex_bound _ _ _ hf0 hf1).1, (convex_bound _ _ _ hf0 hf1).2,
            (convex_bound _ _ _ hf0 hf1).1, (convex_bound _ _ _ hf0 hf1).2⟩
    unfold interpOne
    rw [hc]
    simp only [hm, if_true, hp, hn, hgp, hgn]
    exact List.get?_set_eq_of_lt _ hilen
  · decide

unseal Rat.mul Rat.inv Rat.add Rat.sub Rat.ofScientific in
/-- Witness for C6: Scenario C's buffer, with the dropout at index 1
interpolated between indices 0 and 2 to `(60, 60)`, inside
`[50, 70]`. -/
theorem c6_witness :
    (interpOne c6Buf.data 1).get? 1 =
      some { t := 150, x := some 60, y := some 60 } ∧
    min (50 : Rat) 70 ≤ 60 ∧ (60 : Rat) ≤ max (50 : Rat) 70 := by
  have h := c6_interpolation_bounds.1 c6Buf.data 1 0 2
    { t := 150, x := some 0, y := some 0 }
    { t := 100, x := some 50, y := some 50 }
    { t := 200, x := some 70, y := some 70 }
    (by decide) (by decide) (by decide) (by decide) (by decide)
    (by decide) (by decide)
  refine ⟨?_, by decide, by decide⟩
  rw [h.1]
  decide

/-- A missing `(0,0)` dropout at index 0 whose only valid neighbor is
on the right (`t = 100, x = 50`). -/
def c7Buf : PState :=
  { data := [{ t := 0, x := some 0, y := some 0 },
             { t := 100, x := some 50, y := some 50 }] }

unseal Rat.mul Rat.inv Rat.add Rat.sub Rat.ofScientific in
/-- C7 counterexample: after running `preprocessData` on `c7Buf`, the
missing sample's raw x is still `0` — the single valid neighbor's
value `50` is NOT assigned: the source only assigns when BOTH scans
succeed (`if (prevIdx >= 0 && nextIdx < this.data.length)`), with no
else branch. -/
theorem c7_counterexample :
    ((preprocessData c7Buf).data.get? 0).map PSample.x = some (some 0) ∧
    ((preprocessData c7Buf).data.get? 0).map PSample.x ≠ some (some 50) := by
  exact ⟨by decide, by decide⟩

/-- C7 amended: a missing sample with a valid neighbor on at most one
side is left UNCHANGED by the interpolation step (its raw coordinates,
here the `(0,0)` dropout sentinel, are retained; nothing is held or
extrapolated). -/
theorem c7_one_sided_unchanged (d : List PSample) (i : Nat) (curr : PSample)
    (hc : d.get? i = some curr) (hm : missingB curr = true)
    (hside : findPrevValid d i = none ∨ findNextValid d i = none) :
    interpOne d i = d := by
  unfold interpOne
  rw [hc]
  simp only [hm, if_true]
  rcases hside with h | h
  · rw [h]
  · rw [h]
    rcases hq : findPrevValid d i with _ | pi <;> simp

/-- Witness for C7 (amended): the dropout at index 0 of `c7Buf` has no
valid predecessor, and `interpOne` leaves the buffer unchanged. -/
theorem c7_witness : interpOne c7Buf.data 0 = c7Buf.data :=
  c7_one_sided_unchanged c7Buf.data 0 { t := 0, x := some 0, y := some 0 }
    (by decide) (by decide) (Or.inl (by decide))

lemma findPrevValid_none_of_invalid (d : List PSample)
    (hval : ∀ p ∈ d, validB p = false) :
    ∀ i, findPrevValid d i = none := by
  intro i
  induction i with
  | zero => rfl
  | succ i ih =>
      unfold findPrevValid
      rcases hg : d.get? i with _ | p
      · rfl
      · simp [hval p (List.get?_mem hg), ih]

lemma findNextValidAux_none_of_invalid (d : List PSample)
    (hval : ∀ p ∈ d, validB p = false) :
    ∀ fuel j, findNextValidAux d j fuel = none := by
  intro fuel
  induction fuel with
  | zero => intro j; rfl
  | succ fuel ih =>
      intro j
      unfold findNextValidAux
      rcases hg : d.get? j with _ | p
      · rfl
      · simp [hval p (List.get?_mem hg), ih]

/-- On an all-constant buffer the interpolation step is the identity:
either the constant is nonzero (nothing is missing) or it is zero
(everything is missing and nothing is valid, so the scans fail). -/
lemma interpOne_const (d : List PSample) (i : Nat) (c : Rat)
    (h : ∀ p ∈ d, p.x = some c ∧ p.y = some c) :
    interpOne d i = d := by
  unfold interpOne
  rcases hg : d.get? i with _ | curr
  · rfl
  · obtain ⟨hx, hy⟩ := h curr (List.get?_mem hg)
    by_cases hc0 : c = 0
    · have hval : ∀ p ∈ d, validB p = false := by
        intro p hp
        obtain ⟨hpx, hpy⟩ := h p hp
        simp [validB, hpx, hpy, hc0]
      have hfp := findPrevValid_none_of_invalid d hval i
      by_cases hm : missingB curr <;> simp [hm, hfp]
    · have hm : missingB curr = false := by
        simp [missingB, hx, hy, hc0]
      simp [hm]

lemma interpLoopN_const : ∀ (n : Nat) (d : List PSample) (i : Nat) (c : Rat),
    (∀ p ∈ d, p.x = some c ∧ p.y = some c) →
    interpLoopN d i n = d := by
  intro n
  induction n with
  | zero => intro d i c _; rfl
  | succ n ih =>
      intro d i c h
      unfold interpLoopN
      rw [interpOne_const d i c h]
      exact ih d (i + 1) c h

lemma kTerm_const (d : List PSample) (idx : Int) (w c : Rat)
    (h : ∀ p ∈ d, p.x = some c ∧ p.y = some c) :
    (kTerm d idx w).1 = some (c * (kTerm d idx w).2.2) ∧
    (kTerm d idx w).2.1 = some (c * (kTerm d idx w).2.2) ∧
    ((kTerm d idx w).2.2 = w ∨ (kTerm d idx w).2.2 = 0) ∧
    (0 ≤ idx → idx < (d.length : Int) → (kTerm d idx w).2.2 = w) := by
  unfold kTerm
  by_cases hin : 0 ≤ idx ∧ idx < (d.length : Int)
  · rw [if_pos hin]
    rcases hg : d.get? idx.toNat with _ | p
    · exfalso
      have hlen := List.get?_eq_none.mp hg
      omega
    · obtain ⟨hx, hy⟩ := h p (List.get?_mem hg)
      simp only [hg]
      refine ⟨?_, ?_, ?_, ?_⟩
      · simp [hx, mul_comm]
      · simp [hy, mul_comm]
      · exact Or.inl trivial
      · exact fun _ _ => trivial
  · rw [if_neg hin]
    exact ⟨by simp, by simp, Or.inr rfl, fun h1 h2 => absurd ⟨h1, h2⟩ hin⟩

lemma smoothVelOne_const (d : List PSample) (i : Nat) (c : Rat)
    (h : ∀ p ∈ d, p.x = some c ∧ p.y = some c) (curr : PSample)
    (hg : d.get? i = some curr) :
    ∃ c2 : PSample, smoothVelOne d i = d.set i c2 ∧
      c2.x = curr.x ∧ c2.y = curr.y ∧ c2.gx = some c ∧ c2.gy = some c := by
  have hi : i < d.length := (List.get?_eq_some.mp hg).1
  obtain ⟨k1x, k1y, k1o, -⟩ := kTerm_const d ((i : Int) - 2) (kernel.getD 0 0) c h
  obtain ⟨k2x, k2y, k2o, -⟩ := kTerm_const d ((i : Int) - 1) (kernel.getD 1 0) c h
  obtain ⟨k3x, k3y, -, k3in⟩ := kTerm_const d (i : Int) (kernel.getD 2 0) c h
  obtain ⟨k4x, k4y, k4o, -⟩ := kTerm_const d ((i : Int) + 1) (kernel.getD 3 0) c h
  obtain ⟨k5x, k5y, k5o, -⟩ := kTerm_const d ((i : Int) + 2) (kernel.getD 4 0) c h
  have hc3 : (kTerm d (i : Int) (kernel.getD 2 0)).2.2 = kernel.getD 2 0 :=
    k3in (Int.ofNat_nonneg i) (by exact_mod_cast hi)
  have hpos : 0 < (kTerm d ((i : Int) - 2) (kernel.getD 0 0)).2.2 +
      (kTerm d ((i : Int) - 1) (kernel.getD 1 0)).2.2 +
      (kTerm d (i : Int) (kernel.getD 2 0)).2.2 +
      (kTerm d ((i : Int) + 1) (kernel.getD 3 0)).2.2 +
      (kTerm d ((i : Int) + 2) (kernel.getD 4 0)).2.2 := by
    have n1 : (0 : Rat) ≤ (kTerm d ((i : Int) - 2) (kernel.getD 0 0)).2.2 := by
      rcases k1o with h' | h' <;> rw [h'] <;> norm_num [kernel]
    have n2 : (0 : Rat) ≤ (kTerm d ((i : Int) - 1) (kernel.getD 1 0)).2.2 := by
      rcases k2o with h' | h' <;> rw [h'] <;> norm_num [kernel]
    have n4 : (0 : Rat) ≤ (kTerm d ((i : Int) + 1) (kernel.getD 3 0)).2.2 := by
      rcases k4o with h' | h' <;> rw [h'] <;> norm_num [kernel]
    have n5 : (0 : Rat) ≤ (kTerm d ((i : Int) + 2) (kernel.getD 4 0)).2.2 := by
      rcases k5o with h' | h' <;> rw [h'] <;> norm_num [kernel]
    have n3 : (0 : Rat) < (kTerm d (i : Int) (kernel.getD 2 0)).2.2 := by
      rw [hc3]; norm_num [kernel]
    linarith
  have hSX : optAdd (optAdd (optAdd (optAdd (optAdd (some 0)
        (kTerm d ((i : Int) - 2) (kernel.getD 0 0)).1)
        (kTerm d ((i : Int) - 1) (kernel.getD 1 0)).1)
        (kTerm d (i : Int) (kernel.getD 2 0)).1)
        (kTerm d ((i : Int) + 1) (kernel.getD 3 0)).1)
        (kTerm d ((i : Int) + 2) (kernel.getD 4 0)).1 =
      some (c * ((kTerm d ((i : Int) - 2) (kernel.getD 0 0)).2.2 +
        (kTerm d ((i : Int) - 1) (kernel.getD 1 0)).2.2 +
        (kTerm d (i : Int) (kernel.getD 2 0)).2.2 +
        (kTerm d ((i : Int) + 1) (kernel.getD 3 0)).2.2 +
        (kTerm d ((i : Int) + 2) (kernel.getD 4 0)).2.2)) := by
    rw [k1x, k2x, k3x, k4x, k5x]
    simp [optAdd]
    ring
  have hSY : optAdd (optAdd (optAdd (optAdd (optAdd (some 0)
        (kTerm d ((i : Int) - 2) (kernel.getD 0 0)).2.1)
        (kTerm d ((i : Int) - 1) (kernel.getD 1 0)).2.1)
        (kTerm d (i : Int) (kernel.getD 2 0)).2.1)
        (kTerm d ((i : Int) + 1) (kernel.getD 3 0)).2.1)
        (kTerm d ((i : Int) + 2) (kernel.getD 4 0)).2.1 =
      some (c * ((kTerm d ((i : Int) - 2) (kernel.getD 0 0)).2.2 +
        (kTerm d ((i : Int) - 1) (kernel.getD 1 0)).2.2 +
        (kTerm d (i : Int) (kernel.getD 2 0)).2.2 +
        (kTerm d ((i : Int) + 1) (kernel.getD 3 0)).2.2 +
        (kTerm d ((i : Int) + 2) (kernel.getD 4 0)).2.2)) := by
    rw [k1y, k2y, k3y, k4y, k5y]
    simp [optAdd]
    ring
  unfold smoothVelOne
  simp only [hg, hSX, hSY, Option.map_some']
  have hdiv : c * ((kTerm d ((i : Int) - 2) (kernel.getD 0 0)).2.2 +
        (kTerm d ((i : Int) - 1) (kernel.getD 1 0)).2.2 +
        (kTerm d (i : Int) (kernel.getD 2 0)).2.2 +
        (kTerm d ((i : Int) + 1) (kernel.getD 3 0)).2.2 +
        (kTerm d ((i : Int) + 2) (kernel.getD 4 0)).2.2) /
      ((kTerm d ((i : Int) - 2) (kernel.getD 0 0)).2.2 +
        (kTerm d ((i : Int) - 1) (kernel.getD 1 0)).2.2 +
        (kTerm d (i : Int) (kernel.getD 2 0)).2.2 +
        (kTerm d ((i : Int) + 1) (kernel.getD 3 0)).2.2 +
        (kTerm d ((i : Int) + 2) (kernel.getD 4 0)).2.2) = c :=
    mul_div_cancel_right₀ c (ne_of_gt hpos)
  rw [hdiv]
  by_cases hi0 : i = 0
  · refine ⟨{ curr with gx := some c, gy := some c }, ?_, rfl, rfl, rfl, rfl⟩
    simp [hi0]
  · simp only [hi0, if_false]
    rcases hprev : (d.set i { curr with gx := some c, gy := some c }).get? (i - 1)
      with _ | prev
    · exact ⟨{ curr with gx := some c, gy := some c }, rfl, rfl, rfl, rfl, rfl⟩
    · dsimp only
      by_cases hdt : (0 : Int) < curr.t - prev.t
      · rw [if_pos hdt, List.set_set]
        exact ⟨_, rfl, rfl, rfl, rfl, rfl⟩
      · rw [if_neg hdt, List.set_set]
        exact ⟨_, rfl, rfl, rfl, rfl, rfl⟩

lemma smoothVelOne_length (d : List PSample) (i : Nat) :
    (smoothVelOne d i).length = d.length := by
  unfold smoothVelOne
  split
  · rfl
  · dsimp only
    split
    · simp
    · split
      · simp
      · simp

lemma smoothLoopN_length : ∀ (n : Nat) (d : List PSample) (i : Nat),
    (smoothLoopN d i n).length = d.length := by
  intro n
  induction n with
  | zero => intro d i; rfl
  | succ n ih =>
      intro d i
      unfold smoothLoopN
      rw [ih (smoothVelOne d i) (i + 1), smoothVelOne_length]

lemma smoothLoopN_const (c : Rat) : ∀ (n : Nat) (d : List PSample) (i : Nat),
    (∀ p ∈ d, p.x = some c ∧ p.y = some c) →
    (∀ j q, j < i → d.get? j = some q → q.gx = some c ∧ q.gy = some c) →
    (∀ p ∈ smoothLoopN d i n, p.x = some c ∧ p.y = some c) ∧
    (∀ j q, j < i + n → (smoothLoopN d i n).get? j = some q →
      q.gx = some c ∧ q.gy = some c) := by
  intro n
  induction n with
  | zero =>
      intro d i h h2
      exact ⟨h, fun j q hj hq => h2 j q (by omega) hq⟩
  | succ n ih =>
      intro d i h h2
      unfold smoothLoopN
      rcases hg : d.get? i with _ | curr
      · have he : smoothVelOne d i = d := by
          unfold smoothVelOne
          rw [hg]
        rw [he]
        have h2' : ∀ j q, j < i + 1 → d.get? j = some q →
            q.gx = some c ∧ q.gy = some c := by
          intro j q hj hq
          by_cases hji : j = i
          · rw [hji, hg] at hq; exact absurd hq (by simp)
          · exact h2 j q (by omega) hq
        have hmain := ih d (i + 1) h h2'
        exact ⟨hmain.1, fun j q hj hq => hmain.2 j q (by omega) hq⟩
      · obtain ⟨hcx, hcy⟩ := h curr (List.get?_mem hg)
        have hi : i < d.length := (List.get?_eq_some.mp hg).1
        obtain ⟨c2, hset, hx2, hy2, hgx2, hgy2⟩ :=
          smoothVelOne_const d i c h curr hg
        rw [hset]
        have h' : ∀ p ∈ d.set i c2, p.x = some c ∧ p.y = some c := by
          intro p hp
          rcases List.mem_or_eq_of_mem_set hp with hp' | hpe
          · exact h p hp'
          · rw [hpe, hx2, hy2]; exact ⟨hcx, hcy⟩
        have h2' : ∀ j q, j < i + 1 → (d.set i c2).get? j = some q →
            q.gx = some c ∧ q.gy = some c := by
          intro j q hj hq
          by_cases hji : j = i
          · rw [hji, List.get?_set_eq_of_lt _ hi] at hq
            have hqe : q = c2 := by injection hq with h''; exact h''.symm
            rw [hqe]
            exact ⟨hgx2, hgy2⟩
          · rw [List.get?_set_ne _ _ (fun he' => hji he'.symm)] at hq
            exact h2 j q (by omega) hq
        have hmain := ih (d.set i c2) (i + 1) h' h2'
        exact ⟨hmain.1, fun j q hj hq => hmain.2 j q (by omega) hq⟩

/-- A concrete 2-sample all-constant buffer for the C8 witness. -/
def c8Buf : PState :=
  { data := [⟨0, some 7, some 7, none, none, none, none⟩,
             ⟨33, some 7, some 7, none, none, none, none⟩],
    lastPreprocessIndex := 0 }

/-- C8: the smoothing filter's fixed 5-tap kernel
`[0.0545, 0.2442, 0.4026, 0.2442, 0.0545]` sums to 1, and on a buffer
whose raw positions are all the same constant `c` every sample's
smoothed position `gx`, `gy` equals `c` after `preprocessData` (near
the edges the out-of-range taps are dropped and the sum is divided by
the in-range weights only, so the constant is still preserved). -/
theorem c8_constant_smoothing :
    kernel.sum = 1 ∧
    ∀ (d : List PSample) (c : Rat), 2 ≤ d.length →
      (∀ p ∈ d, p.x = some c ∧ p.y = some c) →
      ∀ q ∈ (preprocessData { data := d, lastPreprocessIndex := 0 }).data,
        q.x = some c ∧ q.y = some c ∧ q.gx = some c ∧ q.gy = some c := by
  constructor
  · norm_num [kernel]
  · intro d c hlen h q hq
    have hne : ¬ d.length < 2 := by omega
    have hcond : ¬ ((d.length : Int) - 1 ≤ 0) := by
      have : (2 : Int) ≤ (d.length : Int) := by exact_mod_cast hlen
      omega
    have hdata : (preprocessData { data := d, lastPreprocessIndex := 0 }).data
        = smoothLoopN d 0 d.length := by
      simp only [preprocessData, hne, if_false, Nat.zero_sub, Nat.sub_zero,
        Nat.cast_zero, hcond]
      rw [interpLoopN_const d.length d 0 c h]
    rw [hdata] at hq
    obtain ⟨j, hj⟩ := List.mem_iff_get?.mp hq
    have hjlen : j < (smoothLoopN d 0 d.length).length :=
      (List.get?_eq_some.mp hj).1
    rw [smoothLoopN_length] at hjlen
    obtain ⟨hxy, hg2⟩ := smoothLoopN_const c d.length d 0 h
      (fun j' q' hj' _ => absurd hj' (Nat.not_lt_zero j'))
    obtain ⟨hx, hy⟩ := hxy q hq
    obtain ⟨hgx, hgy⟩ := hg2 j q (by omega) hj
    exact ⟨hx, hy, hgx, hgy⟩

/-- Witness for C8: the constant-7 two-sample buffer `c8Buf` satisfies
the hypotheses, and after `preprocessData` every sample keeps raw and
smoothed coordinates equal to 7. -/
theorem c8_witness :
    2 ≤ c8Buf.data.length ∧
    ∀ q ∈ (preprocessData c8Buf).data,
      q.x = some 7 ∧ q.y = some 7 ∧ q.gx = some 7 ∧ q.gy = some 7 :=
  ⟨by decide, c8_constant_smoothing.2 _ 7 (by decide) (by decide)⟩

lemma ingestVel_vel (e p : ASample) (rest : List ASample) :
    ∃ e', ingestVel (e :: p :: rest) = e' :: p :: rest ∧
      e'.vx = some (if 0 < e'.t - p.t then (e'.x - p.x) / ((e'.t - p.t : Int) : Rat) else 0) ∧
      e'.vy = some (if 0 < e'.t - p.t then (e'.y - p.y) / ((e'.t - p.t : Int) : Rat) else 0) := by
  by_cases hdt : 0 < e.t - p.t
  · refine ⟨{ e with vx := some ((e.x - p.x) / ((e.t - p.t : Int) : Rat)),
                     vy := some ((e.y - p.y) / ((e.t - p.t : Int) : Rat)) }, ?_, ?_, ?_⟩
    · simp [ingestVel, hdt]
    · simp [hdt]
    · simp [hdt]
  · refine ⟨{ e with vx := some 0, vy := some 0 }, ?_, ?_, ?_⟩
    · simp [ingestVel, hdt]
    · simp [hdt]
    · simp [hdt]

lemma ingestCore_vel (ts : Int) (x y : Rat) (s : GazeState)
    (c p : ASample) (rest : List ASample)
    (hd : (ingestCore ts x y s).dataRev = c :: p :: rest) :
    c.vx = some (if 0 < c.t - p.t then (c.x - p.x) / ((c.t - p.t : Int) : Rat) else 0) ∧
    c.vy = some (if 0 < c.t - p.t then (c.y - p.y) / ((c.t - p.t : Int) : Rat) else 0) := by
  rw [ingestCore_dataRev] at hd
  rcases hL : (if MAX_BUFFER_SIZE < s.dataRev.length + 1
      then (mkEntry ts x y s :: s.dataRev).take (s.dataRev.length + 1 - trimCount)
      else mkEntry ts x y s :: s.dataRev) with _ | ⟨e, M⟩
  · rw [hL] at hd
    exact absurd hd (by simp [ingestVel])
  · rw [hL] at hd
    rcases M with _ | ⟨q, M'⟩
    · simp [ingestVel] at hd
  -- hd now gives the impossible `[] = p :: rest` inside; handled by simp
    · obtain ⟨e', hvel, hvx, hvy⟩ := ingestVel_vel e q M'
      rw [hvel] at hd
      injection hd with h1 h2
      injection h2 with h3 h4
      subst h1
      subst h3
      exact ⟨hvx, hvy⟩

lemma fireEffect_dataRev (kind : TriggerKind) (v : Rat) (s : GazeState)
    (h0 : ASample) (t0 : List ASample) (hd : s.dataRev = h0 :: t0) :
    (fireEffect kind v s).1.dataRev = { h0 with didFire := true } :: t0 := by
  unfold fireEffect
  rw [hd]

lemma pendingResolve_dataRev (t : Int) (el : Option Int) (s : GazeState)
    (h0 : ASample) (t0 : List ASample) (hd : s.dataRev = h0 :: t0) :
    ∃ df, (pendingResolve t el s).1.dataRev = { h0 with didFire := df } :: t0 := by
  unfold pendingResolve
  rcases hpend : s.pendingReturnSweep with _ | pe
  · exact ⟨h0.didFire, by rw [hd]⟩
  · rcases el with _ | l
    · exact ⟨h0.didFire, by rw [hd]⟩
    · dsimp only
      by_cases htw : t - pe.1 < 1000
      · rw [if_pos htw]
        exact ⟨true, fireEffect_dataRev TriggerKind.delayed pe.2 s h0 t0 hd⟩
      · rw [if_neg htw]
        exact ⟨h0.didFire, by rw [hd]⟩

lemma detectCore_dataRev (d0 d1 d2 : ASample) (s : GazeState) :
    ∃ df, (detectCore d0 d1 d2 s).1.dataRev =
      { d0 with gx := some (smoothXOf d0 d1 d2), didFire := df } :: s.dataRev.tail := by
  unfold detectCore
  dsimp only
  repeat' split
  all_goals first
    | exact ⟨d0.didFire, rfl⟩
    | exact ⟨true, rfl⟩

lemma detectStep_dataRev (s : GazeState) (h0 : ASample) (t0 : List ASample)
    (hd : s.dataRev = h0 :: t0) :
    ∃ g df, (detectStep s).1.dataRev = { h0 with gx := g, didFire := df } :: t0 := by
  unfold detectStep
  rw [hd]
  rcases t0 with _ | ⟨d1, _ | ⟨d2, _ | ⟨d3, _ | ⟨d4, rest⟩⟩⟩⟩
  · exact ⟨h0.gx, h0.didFire, by dsimp only; rw [hd]⟩
  · exact ⟨h0.gx, h0.didFire, by dsimp only; rw [hd]⟩
  · exact ⟨h0.gx, h0.didFire, by dsimp only; rw [hd]⟩
  · exact ⟨h0.gx, h0.didFire, by dsimp only; rw [hd]⟩
  · obtain ⟨df, h'⟩ := detectCore_dataRev h0 d1 d2 s
    rw [hd] at h'
    exact ⟨some (smoothXOf h0 d1 d2), df, h'⟩

lemma processGaze_dataRev (ts : Int) (x y : Rat) (s : GazeState)
    (h0 : ASample) (t0 : List ASample)
    (hd : (ingestCore ts x y s).dataRev = h0 :: t0) :
    ∃ g df, (processGaze ts x y s).1.dataRev =
      { h0 with gx := g, didFire := df } :: t0 := by
  unfold processGaze
  dsimp only
  rw [hd]
  dsimp only
  obtain ⟨df1, hpr⟩ :=
    pendingResolve_dataRev h0.t h0.line (ingestCore ts x y s) h0 t0 hd
  obtain ⟨g, df2, hds⟩ :=
    detectStep_dataRev (pendingResolve h0.t h0.line (ingestCore ts x y s)).1 _ _ hpr
  exact ⟨g, df2, hds⟩

lemma processGaze_vel (ts : Int) (x y : Rat) (s : GazeState)
    (c p : ASample) (rest : List ASample)
    (hd : (processGaze ts x y s).1.dataRev = c :: p :: rest) :
    c.vx = some (if 0 < c.t - p.t then (c.x - p.x) / ((c.t - p.t : Int) : Rat) else 0) ∧
    c.vy = some (if 0 < c.t - p.t then (c.y - p.y) / ((c.t - p.t : Int) : Rat) else 0) := by
  obtain ⟨h0, tl, hing, -, -, -, -, -, -⟩ := ingestCore_head ts x y s
  obtain ⟨g, df, hfin⟩ := processGaze_dataRev ts x y s h0 tl hing
  rw [hfin] at hd
  injection hd with h1 h2
  subst h2
  subst h1
  have hv := ingestCore_vel ts x y s h0 p rest hing
  exact ⟨hv.1, hv.2⟩

lemma interpOne_length (d : List PSample) (i : Nat) :
    (interpOne d i).length = d.length := by
  unfold interpOne
  repeat' split
  all_goals simp

lemma interpLoopN_length : ∀ (n : Nat) (d : List PSample) (i : Nat),
    (interpLoopN d i n).length = d.length := by
  intro n
  induction n with
  | zero => intro d i; rfl
  | succ n ih =>
      intro d i
      unfold interpLoopN
      rw [ih (interpOne d i) (i + 1), interpOne_length]

lemma smoothVelOne_get_ne (d : List PSample) (i j : Nat) (hne : j ≠ i) :
    (smoothVelOne d i).get? j = d.get? j := by
  unfold smoothVelOne
  split
  · rfl
  · dsimp only
    split
    · exact List.get?_set_ne _ _ (fun h => hne h.symm)
    · split
      · rw [List.get?_set_ne _ _ (fun h => hne h.symm),
            List.get?_set_ne _ _ (fun h => hne h.symm)]
      · exact List.get?_set_ne _ _ (fun h => hne h.symm)

lemma smoothLoopN_get_lt : ∀ (n : Nat) (d : List PSample) (i j : Nat), j < i →
    (smoothLoopN d i n).get? j = d.get? j := by
  intro n
  induction n with
  | zero => intro d i j _; rfl
  | succ n ih =>
      intro d i j hj
      unfold smoothLoopN
      rw [ih (smoothVelOne d i) (i + 1) j (by omega),
          smoothVelOne_get_ne d i j (by omega)]

lemma smoothVelOne_establishes (d : List PSample) (i : Nat) (hi1 : 1 ≤ i)
    (curr : PSample) (hg : d.get? i = some curr) :
    ∀ cj pj, (smoothVelOne d i).get? i = some cj →
      (smoothVelOne d i).get? (i - 1) = some pj →
      (cj.vx = if 0 < cj.t - pj.t
               then (optSub cj.gx pj.gx).map (· / ((cj.t - pj.t : Int) : Rat))
               else some 0) ∧
      (cj.vy = if 0 < cj.t - pj.t
               then (optSub cj.gy pj.gy).map (· / ((cj.t - pj.t : Int) : Rat))
               else some 0) := by
  intro cj pj hcj hpj
  have hi : i < d.length := (List.get?_eq_some.mp hg).1
  have hne : i - 1 ≠ i := by omega
  have hi1len : i - 1 < d.length := by omega
  rcases hp : d.get? (i - 1) with _ | prev
  · exact absurd (List.get?_eq_none.mp hp) (by omega)
  · unfold smoothVelOne at hcj hpj
    rw [hg] at hcj hpj
    dsimp only at hcj hpj
    rw [if_neg (by omega : ¬ i = 0)] at hcj hpj
    rw [List.get?_set_ne _ _ (fun h => hne h.symm), hp] at hcj hpj
    dsimp only at hcj hpj
    rw [List.set_set] at hcj hpj
    rw [List.get?_set_eq_of_lt _ hi] at hcj
    rw [List.get?_set_ne _ _ (fun h => hne h.symm), hp] at hpj
    injection hpj with hpj'
    subst hpj'
    injection hcj with hcj'
    by_cases hdt : (0 : Int) < curr.t - prev.t
    · rw [if_pos hdt] at hcj'
      subst hcj'
      constructor
      · rw [if_pos hdt]
      · rw [if_pos hdt]
    · rw [if_neg hdt] at hcj'
      subst hcj'
      constructor
      · rw [if_neg hdt]
      · rw [if_neg hdt]

lemma smoothLoopN_vel (j : Nat) (hj1 : 1 ≤ j) : ∀ (n : Nat) (d : List PSample) (i : Nat),
    i ≤ j → j < i + n → j < d.length →
    ∀ cj pj, (smoothLoopN d i n).get? j = some cj →
      (smoothLoopN d i n).get? (j - 1) = some pj →
      (cj.vx = if 0 < cj.t - pj.t
               then (optSub cj.gx pj.gx).map (· / ((cj.t - pj.t : Int) : Rat))
               else some 0) ∧
      (cj.vy = if 0 < cj.t - pj.t
               then (optSub cj.gy pj.gy).map (· / ((cj.t - pj.t : Int) : Rat))
               else some 0) := by
  intro n
  induction n with
  | zero => intro d i h1 h2 _ _ _ _ _; omega
  | succ n ih =>
      intro d i hij hjn hjlen cj pj hcj hpj
      unfold smoothLoopN at hcj hpj
      by_cases hieq : i = j
      · subst hieq
        rw [smoothLoopN_get_lt n (smoothVelOne d i) (i + 1) i (by omega)] at hcj
        rw [smoothLoopN_get_lt n (smoothVelOne d i) (i + 1) (i - 1) (by omega)] at hpj
        rcases hg : d.get? i with _ | curr
        · exact absurd (List.get?_eq_none.mp hg) (by omega)
        · exact smoothVelOne_establishes d i hj1 curr hg cj pj hcj hpj
      · have hlen' : j < (smoothVelOne d i).length := by
          rw [smoothVelOne_length]; exact hjlen
        exact ih (smoothVelOne d i) (i + 1) (by omega) (by omega) hlen' cj pj hcj hpj

/-- A session whose 7th frame leaves two fully-populated samples at the
head of the buffer: the 6th frame fired (so the detector wrote `gx` to
both), and the 7th frame's raw velocity was computed by the VELOCITY
CALC block. -/
def c5Trace : List SessionOp :=
  [SessionOp.ingest 1000 100 0,
   SessionOp.setContext (some 1),
   SessionOp.ingest 1033 150 0,
   SessionOp.ingest 1066 200 0,
   SessionOp.ingest 1099 40 0,
   SessionOp.ingest 1132 35 0,
   SessionOp.ingest 1165 200 0]

unseal Rat.mul Rat.inv Rat.add Rat.sub Rat.ofScientific in
/-- C5 counterexample: on the per-sample ingestion path the stored
velocity is NOT the finite difference of the smoothed positions.
After `c5Trace` the newest sample has `vx = 5` — the raw difference
`(200 - 35) / 33` — while both the newest and the previous sample
carry smoothed positions (`gx = 237/2` and `gx = 139/2`), whose
finite difference over `dt = 165 - 132 = 33` is `49/33 ≠ 5`. -/
theorem c5_counterexample :
    ((execState initState c5Trace).dataRev.get? 0).map ASample.vx = some (some 5) ∧
    ((execState initState c5Trace).dataRev.get? 0).map ASample.gx
      = some (some (237/2)) ∧
    ((execState initState c5Trace).dataRev.get? 1).map ASample.gx
      = some (some (139/2)) ∧
    ((execState initState c5Trace).dataRev.get? 0).map ASample.t = some 165 ∧
    ((execState initState c5Trace).dataRev.get? 1).map ASample.t = some 132 ∧
    ¬ ((5 : Rat) = ((237/2 : Rat) - 139/2) / ((165 - 132 : Int) : Rat)) := by
  decide

/-- C5 (amended): the stored velocity is a finite difference over the
time difference, zero when `Δt ≤ 0`, on both paths — but the two paths
difference DIFFERENT positions.  The per-sample ingestion path
(`processGaze`) differences the RAW positions `(c.x - p.x) / Δt`; only
the batch path (`preprocessData`) differences the SMOOTHED positions
`(gx[j] - gx[j-1]) / Δt` (symmetrically for `y`). -/
theorem c5_velocity_formulas :
    (∀ (ts : Int) (x y : Rat) (s : GazeState) (c p : ASample) (rest : List ASample),
        (processGaze ts x y s).1.dataRev = c :: p :: rest →
        c.vx = some (if 0 < c.t - p.t
                     then (c.x - p.x) / ((c.t - p.t : Int) : Rat) else 0) ∧
        c.vy = some (if 0 < c.t - p.t
                     then (c.y - p.y) / ((c.t - p.t : Int) : Rat) else 0)) ∧
    (∀ (d : List PSample) (j : Nat) (cj pj : PSample), 1 ≤ j →
        (preprocessData { data := d, lastPreprocessIndex := 0 }).data.get? j = some cj →
        (preprocessData { data := d, lastPreprocessIndex := 0 }).data.get? (j - 1) = some pj →
        (cj.vx = if 0 < cj.t - pj.t
                 then (optSub cj.gx pj.gx).map (· / ((cj.t - pj.t : Int) : Rat))
                 else some 0) ∧
        (cj.vy = if 0 < cj.t - pj.t
                 then (optSub cj.gy pj.gy).map (· / ((cj.t - pj.t : Int) : Rat))
                 else some 0)) := by
  constructor
  · exact fun ts x y s c p rest hd => processGaze_vel ts x y s c p rest hd
  · intro d j cj pj hj1 hcj hpj
    by_cases hlen : d.length < 2
    · simp only [preprocessData, hlen, if_true] at hcj
      have := (List.get?_eq_some.mp hcj).1
      omega
    · have hlen2 : 2 ≤ d.length := by omega
      have hcond : ¬ ((d.length : Int) - 1 ≤ 0) := by
        have : (2 : Int) ≤ (d.length : Int) := by exact_mod_cast hlen2
        omega
      have hdata : (preprocessData { data := d, lastPreprocessIndex := 0 }).data
          = smoothLoopN (interpLoopN d 0 d.length) 0 d.length := by
        simp only [preprocessData, hlen, if_false, Nat.zero_sub, Nat.sub_zero,
          Nat.cast_zero, hcond]
      rw [hdata] at hcj hpj
      have hjlen : j < (interpLoopN d 0 d.length).length := by
        have h1 : j < (smoothLoopN (interpLoopN d 0 d.length) 0 d.length).length :=
          (List.get?_eq_some.mp hcj).1
        rw [smoothLoopN_length] at h1
        exact h1
      exact smoothLoopN_vel j hj1 d.length (interpLoopN d 0 d.length) 0
        (Nat.zero_le j) (by rw [interpLoopN_length] at hjlen; omega) hjlen cj pj hcj hpj

/-- The newest sample after the two-frame session of the C5 witness:
raw velocity `(150 - 100) / 33 = 50/33`. -/
def c5HeadW : ASample :=
  { t := 33, x := 150, y := 0, line := none,
    vx := some (50/33), vy := some 0 }

/-- The first sample of that session (no predecessor: no velocity). -/
def c5PrevW : ASample :=
  { t := 0, x := 100, y := 0, line := none }

unseal Rat.mul Rat.inv Rat.add Rat.sub Rat.ofScientific in
/-- Witness for C5 (amended): two concrete frames into a fresh manager
leave head samples `c5HeadW :: c5PrevW`, and the ingestion-path
formula instantiates on them. -/
theorem c5_witness :
    (processGaze 1033 150 0 (processGaze 1000 100 0 initState).1).1.dataRev
      = c5HeadW :: c5PrevW :: [] ∧
    c5HeadW.vx = some (if 0 < c5HeadW.t - c5PrevW.t
                       then (c5HeadW.x - c5PrevW.x) / ((c5HeadW.t - c5PrevW.t : Int) : Rat)
                       else 0) :=
  ⟨by decide,
   (c5_velocity_formulas.1 1033 150 0 (processGaze 1000 100 0 initState).1
      c5HeadW c5PrevW [] (by decide)).1⟩
